import Mathlib

/-!
# Space Oblique Mercator for LANDSAT (`lsat.hpp`)

A shallow embedding of `boost/geometry/srs/projections/proj/lsat.hpp`.

The C++ code is a template over the calculation type `T`.  The embedding keeps that
shape: every definition is generic over a linearly ordered field `T` that carries the
elementary functions the code calls (`CalcFns T`).  Arithmetic is exact (no rounding,
overflow or NaN); comparisons are the decidable order of `T`; a division by zero has the
value 0, as in every field of Mathlib, and no evaluation below divides by zero.  The real
numbers give the intended reading (`CalcFns ℝ`).

Loops are recursive functions.  The two `for` loops of `setup_lsat` over a floating
counter take a fuel argument and return `none` when it runs out; the loops of `fwd` and
`inv` count down program variables and are total.  A thrown `projection_exception(c)` is
`Except.error c`; the sentinel `HUGE_VAL` is a constructor of the output coordinate type.
-/

namespace lsat

/-- The elementary functions and the circle constant used by the code, for a calculation
type `T`.  `aasin` is the guarded arc sine of `impl/aasincos.hpp`, which is outside this
source file; it is taken as a given function. -/
class CalcFns (T : Type) where
  sin : T → T
  cos : T → T
  tan : T → T
  atan : T → T
  sqrt : T → T
  log : T → T
  exp : T → T
  aasin : T → T
  pi : T

/-- The real numbers with the usual elementary functions. -/
noncomputable instance : CalcFns ℝ where
  sin := Real.sin
  cos := Real.cos
  tan := Real.tan
  atan := Real.arctan
  sqrt := Real.sqrt
  log := Real.log
  exp := Real.exp
  aasin := Real.arcsin
  pi := Real.pi

section Defs

variable {T : Type} [LinearOrderedField T] [CalcFns T]

open CalcFns

/-- `static const double TOL = 1e-7;` -/
def TOL : T := 1e-7

/-- Modelled from the spec: `geometry::math::d2r<T>()`, declared outside this file; the
spec gives degrees to radians as `π/180`. -/
def d2r : T := pi / 180

/-- Modelled from the spec: `detail::HALFPI<T>()`, declared outside this file: `π/2`. -/
def HALFPI : T := pi / 2

/-- Modelled from the spec: `detail::FORTPI<T>()`, declared outside this file: `π/4`. -/
def FORTPI : T := pi / 4

/-- Modelled from the spec: `detail::PI_HALFPI<T>()`, declared outside this file:
`π + π/2`. -/
def PI_HALFPI : T := pi + pi / 2

/-- Modelled from the spec: `detail::TWOPI_HALFPI<T>()`, declared outside this file:
`2π + π/2`. -/
def TWOPI_HALFPI : T := 2 * pi + pi / 2

/-- Modelled from the spec: `detail::ONEPI<T>()`, declared outside this file: `π`. -/
def ONEPI : T := pi

/-- Modelled from the spec: `detail::TWOPI<T>()`, declared outside this file: `2π`. -/
def TWOPI : T := 2 * pi

/-- `struct par_lsat`. -/
structure par_lsat (T : Type) where
  a2 : T
  a4 : T
  b : T
  c1 : T
  c3 : T
  q : T
  t : T
  u : T
  w : T
  p22 : T
  sa : T
  ca : T
  xj : T
  rlm : T
  rlm2 : T

/-- The fields of the shared `Parameters` object that this file reads or writes. -/
structure Parameters (T : Type) where
  lam0 : T
  es : T
  one_es : T
  rone_es : T

/-- `seraz0(lam, mult, proj_parm)`: the updated `proj_parm`. -/
def seraz0 (lam : T) (mult : T) (proj_parm : par_lsat T) : par_lsat T :=
  let lam : T := lam * d2r
  let sd : T := sin lam
  let sdsq : T := sd * sd
  let s : T := proj_parm.p22 * proj_parm.sa * cos lam * sqrt ((1 + proj_parm.t * sdsq)
    / ((1 + proj_parm.w * sdsq) * (1 + proj_parm.q * sdsq)))
  let d__1 : T := 1 + proj_parm.q * sdsq
  let h : T := sqrt ((1 + proj_parm.q * sdsq) / (1 + proj_parm.w * sdsq)) * ((1 + proj_parm.w * sdsq)
    / (d__1 * d__1) - proj_parm.p22 * proj_parm.ca)
  let sq : T := sqrt (proj_parm.xj * proj_parm.xj + s * s)
  let fc : T := mult * (h * proj_parm.xj - s * s) / sq
  let proj_parm : par_lsat T := { proj_parm with b := proj_parm.b + fc }
  let proj_parm : par_lsat T := { proj_parm with a2 := proj_parm.a2 + fc * cos (lam + lam) }
  let proj_parm : par_lsat T := { proj_parm with a4 := proj_parm.a4 + fc * cos (lam * 4) }
  let fc : T := mult * s * (h + proj_parm.xj) / sq
  let proj_parm : par_lsat T := { proj_parm with c1 := proj_parm.c1 + fc * cos lam }
  { proj_parm with c3 := proj_parm.c3 + fc * cos (lam * 3) }

/-- The value of `s` in `seraz0`, for the sample longitude `lam` in degrees. -/
def serazS (lam : T) (proj_parm : par_lsat T) : T :=
  let lam : T := lam * d2r
  let sd : T := sin lam
  let sdsq : T := sd * sd
  proj_parm.p22 * proj_parm.sa * cos lam * sqrt ((1 + proj_parm.t * sdsq)
    / ((1 + proj_parm.w * sdsq) * (1 + proj_parm.q * sdsq)))

/-- The value of `h` in `seraz0`, for the sample longitude `lam` in degrees. -/
def serazH (lam : T) (proj_parm : par_lsat T) : T :=
  let lam : T := lam * d2r
  let sd : T := sin lam
  let sdsq : T := sd * sd
  let d__1 : T := 1 + proj_parm.q * sdsq
  sqrt ((1 + proj_parm.q * sdsq) / (1 + proj_parm.w * sdsq)) * ((1 + proj_parm.w * sdsq)
    / (d__1 * d__1) - proj_parm.p22 * proj_parm.ca)

/-- The first `fc` of `seraz0` at weight one: the integrand of `b`, `a2`, `a4`. -/
def serazF (lam : T) (proj_parm : par_lsat T) : T :=
  (serazH lam proj_parm * proj_parm.xj - serazS lam proj_parm * serazS lam proj_parm)
    / sqrt (proj_parm.xj * proj_parm.xj + serazS lam proj_parm * serazS lam proj_parm)

/-- The second `fc` of `seraz0` at weight one: the integrand of `c1`, `c3`. -/
def serazG (lam : T) (proj_parm : par_lsat T) : T :=
  serazS lam proj_parm * (serazH lam proj_parm + proj_parm.xj)
    / sqrt (proj_parm.xj * proj_parm.xj + serazS lam proj_parm * serazS lam proj_parm)

/-- The weights `1, 4, 2, 4, 2, 4, 2, 4, 2, 4, 1` of the composite Simpson rule on the
grid points `0, ..., 10`. -/
def simpsonWeight (i : Nat) : T :=
  if i = 0 ∨ i = 10 then 1 else if i % 2 = 1 then 4 else 2

/-- Two parameter bundles agree on every field that `seraz0` only reads. -/
def sameConsts (P Q : par_lsat T) : Prop :=
  P.q = Q.q ∧ P.t = Q.t ∧ P.u = Q.u ∧ P.w = Q.w ∧ P.p22 = Q.p22 ∧ P.sa = Q.sa ∧ P.ca = Q.ca ∧
    P.xj = Q.xj ∧ P.rlm = Q.rlm ∧ P.rlm2 = Q.rlm2

/-- The loop `for (lam = lam0; lam <= hi; lam += 18.) seraz0(lam, mult, proj_parm);`.
`fuel` bounds the number of executions of the body; the result is `none` when the
condition still holds with no fuel left. -/
def serazLoop (mult hi : T) : Nat → T → par_lsat T → Option (par_lsat T)
  | 0, lam, proj_parm => if lam ≤ hi then none else some proj_parm
  | fuel + 1, lam, proj_parm =>
    if lam ≤ hi then serazLoop mult hi fuel (lam + 18) (seraz0 lam mult proj_parm)
    else some proj_parm

/-- The lines of `setup_lsat` from `proj_parm.p22 /= 1440.` to the assignment of `rlm2`:
the orbit constants, as a function of the inclination `alf` chosen before. -/
def setup_consts (alf : T) (par : Parameters T) (proj_parm : par_lsat T) : par_lsat T :=
  let proj_parm : par_lsat T := { proj_parm with p22 := proj_parm.p22 / 1440 }
  let proj_parm : par_lsat T := { proj_parm with sa := sin alf }
  let proj_parm : par_lsat T := { proj_parm with ca := cos alf }
  let proj_parm : par_lsat T :=
    if |proj_parm.ca| < 1e-9 then { proj_parm with ca := 1e-9 } else proj_parm
  let esc : T := par.es * proj_parm.ca * proj_parm.ca
  let ess : T := par.es * proj_parm.sa * proj_parm.sa
  let proj_parm : par_lsat T := { proj_parm with w := (1 - esc) * par.rone_es }
  let proj_parm : par_lsat T := { proj_parm with w := proj_parm.w * proj_parm.w - 1 }
  let proj_parm : par_lsat T := { proj_parm with q := ess * par.rone_es }
  let proj_parm : par_lsat T :=
    { proj_parm with t := ess * (2 - par.es) * par.rone_es * par.rone_es }
  let proj_parm : par_lsat T := { proj_parm with u := esc * par.rone_es }
  let proj_parm : par_lsat T := { proj_parm with xj := par.one_es * par.one_es * par.one_es }
  let proj_parm : par_lsat T :=
    { proj_parm with rlm := ONEPI * (1 / 248 + 0.5161290322580645) }
  { proj_parm with rlm2 := proj_parm.rlm + TWOPI }

/-- The last five lines of `setup_lsat`: the divisions of the accumulated sums. -/
def setup_divide (proj_parm : par_lsat T) : par_lsat T :=
  let proj_parm : par_lsat T := { proj_parm with a2 := proj_parm.a2 / 30 }
  let proj_parm : par_lsat T := { proj_parm with a4 := proj_parm.a4 / 60 }
  let proj_parm : par_lsat T := { proj_parm with b := proj_parm.b / 30 }
  let proj_parm : par_lsat T := { proj_parm with c1 := proj_parm.c1 / 15 }
  { proj_parm with c3 := proj_parm.c3 / 45 }

/-- The line `proj_parm.a2 = proj_parm.a4 = proj_parm.b = proj_parm.c1 = proj_parm.c3 = 0.`
of `setup_lsat`. -/
def setup_reset (proj_parm : par_lsat T) : par_lsat T :=
  { proj_parm with a2 := 0, a4 := 0, b := 0, c1 := 0, c3 := 0 }

/-- The lines of `setup_lsat` from the reset of `a2, a4, b, c1, c3` to the end: the
quadrature.  The result is `none` only when a loop runs out of `fuel`. -/
def setup_quadrature (fuel : Nat) (proj_parm : par_lsat T) : Option (par_lsat T) :=
  let proj_parm : par_lsat T := setup_reset proj_parm
  let proj_parm : par_lsat T := seraz0 0 1 proj_parm
  (serazLoop 4 81.0001 fuel 9 proj_parm).bind fun proj_parm =>
  (serazLoop 2 72.0001 fuel 18 proj_parm).bind fun proj_parm =>
  let proj_parm : par_lsat T := seraz0 90 1 proj_parm
  some (setup_divide proj_parm)

/-- `setup_lsat(par, proj_parm)`: the updated `par` and `proj_parm`.  `land` and `path`
are the integers that the external parameter dictionary returns for `lsat` and `path`.
A thrown `projection_exception(c)` is `Except.error c`; the outer `Option` is `none` only
when a quadrature loop runs out of `fuel`.  The body after the two checks continues in
`setup_consts` and `setup_quadrature`. -/
def setup_lsat (fuel : Nat) (land path : Int) (par : Parameters T) (proj_parm : par_lsat T) :
    Option (Except Int (Parameters T × par_lsat T)) :=
  if land ≤ 0 ∨ land > 5 then some (Except.error (-28))
  else if path ≤ 0 ∨ path > (if land ≤ 3 then 251 else 233) then some (Except.error (-29))
  else if land ≤ 3 then
    let par : Parameters T := { par with lam0 := d2r * 128.87 - TWOPI / 251 * (path : T) }
    let proj_parm : par_lsat T := { proj_parm with p22 := 103.2669323 }
    let alf : T := d2r * 99.092
    (setup_quadrature fuel (setup_consts alf par proj_parm)).map fun proj_parm =>
      Except.ok (par, proj_parm)
  else
    let par : Parameters T := { par with lam0 := d2r * 129.3 - TWOPI / 233 * (path : T) }
    let proj_parm : par_lsat T := { proj_parm with p22 := 98.8841202 }
    let alf : T := d2r * 98.2
    (setup_quadrature fuel (setup_consts alf par proj_parm)).map fun proj_parm =>
      Except.ok (par, proj_parm)

/-- The eleven quadrature samples `(longitude in degrees, weight)`, in the order in which
`setup_lsat` passes them to `seraz0`. -/
def samples : List (T × T) :=
  [(0, 1), (9, 4), (27, 4), (45, 4), (63, 4), (81, 4), (18, 2), (36, 2), (54, 2), (72, 2),
    (90, 1)]

/-- The path bound of a satellite: `land <= 3 ? 251 : 233`. -/
def pathBound (land : Int) : Int := if land ≤ 3 then 251 else 233

/-- A planar output coordinate: a value of `T`, or the sentinel `HUGE_VAL`. -/
inductive Coord (T : Type) where
  | val : T → Coord T
  | HUGE_VAL : Coord T

/-- The state on leaving the inner loop of `fwd`: the program variables `l`, `lamt`,
`lamdp`, and two ghost fields for the statements below: `steps` counts the executions of
the loop body, `met` tells whether the loop was left by `break`, that is, whether the
tolerance test of its last step held. -/
structure InnerOut (T : Type) where
  l : Nat
  lamt : T
  lamdp : T
  steps : Nat
  met : Bool

/-- One execution of the body of the inner loop of `fwd`, up to the tolerance test: the
new `(lamt, lamdp)` from the current `sav`. -/
def fwdBody (par : Parameters T) (P : par_lsat T) (lp_lon tanphi fac sav : T) : T × T :=
  let lamt : T := lp_lon + P.p22 * sav
  let c : T := cos lamt
  let lamt : T := if |c| < TOL then lamt - TOL else lamt
  let xlam : T := (par.one_es * tanphi * P.sa + sin lamt * P.ca) / c
  let lamdp : T := atan xlam + fac
  (lamt, lamdp)

/-- The inner loop of `fwd`, `for (l = 50; l; --l) { ...; if (...) break; sav = lamdp; }`,
entered with the given `l` and `sav`; `lamt` and `lamdp` are the values the variables
hold on entry. -/
def fwdInner (par : Parameters T) (P : par_lsat T) (lp_lon tanphi fac : T) :
    Nat → T → T → T → InnerOut T
  | 0, _, lamt, lamdp => ⟨0, lamt, lamdp, 0, false⟩
  | l + 1, sav, _, _ =>
    let b : T × T := fwdBody par P lp_lon tanphi fac sav
    if |(|sav| - |b.2|)| < TOL then ⟨l + 1, b.1, b.2, 1, true⟩
    else
      let r : InnerOut T := fwdInner par P lp_lon tanphi fac l b.2 b.1 b.2
      { r with steps := r.steps + 1 }

/-- The value of `sav` in the inner loop of `fwd` after `k` executions of the body, were
the loop never left: the entry value `sav` for `k = 0`. -/
def fwdEst (par : Parameters T) (P : par_lsat T) (lp_lon tanphi fac sav : T) (k : Nat) : T :=
  (fun x => (fwdBody par P lp_lon tanphi fac x).2)^[k] sav

/-- The state on leaving the outer loop of `fwd`: the program variables `l`, `lamt`,
`lamdp`, `nn`, and the ghost list `attempts` of the inner-loop results of every outer
attempt that was run, oldest first. -/
structure OuterOut (T : Type) where
  l : Nat
  lamt : T
  lamdp : T
  nn : Nat
  attempts : List (InnerOut T)

/-- One attempt of the outer loop of `fwd`: the lines of its body from `sav = lampp` to
the end of the inner loop.  The store `lamtp -= TOL` is dead and left out. -/
def fwdAttempt (par : Parameters T) (P : par_lsat T) (lp_lon tanphi : T)
    (lampp lamt lamdp : T) : InnerOut T :=
  let sav : T := lampp
  let lamtp : T := lp_lon + P.p22 * lampp
  let cl : T := cos lamtp
  let fac : T := if cl < 0 then lampp + sin lampp * HALFPI else lampp - sin lampp * HALFPI
  fwdInner par P lp_lon tanphi fac 50 sav lamt lamdp

/-- The outer loop of `fwd`, `for (nn = 0;;) { ... }`, entered with the given `nn` and
`lampp`. -/
def fwdOuter (par : Parameters T) (P : par_lsat T) (lp_lon tanphi : T)
    (nn : Nat) (lampp lamt lamdp : T) : OuterOut T :=
  let r : InnerOut T := fwdAttempt par P lp_lon tanphi lampp lamt lamdp
  if r.l = 0 then ⟨r.l, r.lamt, r.lamdp, nn, [r]⟩
  else if nn + 1 ≥ 3 ∨ (r.lamdp > P.rlm ∧ r.lamdp < P.rlm2) then
    ⟨r.l, r.lamt, r.lamdp, nn + 1, [r]⟩
  else
    let lampp : T :=
      if r.lamdp ≤ P.rlm then TWOPI_HALFPI
      else if r.lamdp ≥ P.rlm2 then HALFPI
      else lampp
    let o : OuterOut T := fwdOuter par P lp_lon tanphi (nn + 1) lampp r.lamt r.lamdp
    { o with attempts := r :: o.attempts }
termination_by 3 - nn
decreasing_by
  simp_wf
  omega

/-- The clamp of the latitude at the start of `fwd`. -/
def fwdClamp (lp_lat : T) : T :=
  if lp_lat > HALFPI then HALFPI
  else if lp_lat < -HALFPI then -HALFPI
  else lp_lat

/-- The lines of `fwd` after the clamp up to the end of the outer loop, for the latitude
`lp_lat` left by the clamp. -/
def fwdLoop (par : Parameters T) (P : par_lsat T) (lp_lon lp_lat : T) : OuterOut T :=
  let lampp : T := if lp_lat ≥ 0 then HALFPI else PI_HALFPI
  let tanphi : T := tan lp_lat
  fwdOuter par P lp_lon tanphi 0 lampp 0 0

/-- The closed-form `xy_x` of `fwd`, in the `if (l)` branch. -/
def fwdX (par : Parameters T) (P : par_lsat T) (lp_lat lamt lamdp : T) : T :=
  let sp : T := sin lp_lat
  let phidp : T := aasin ((par.one_es * P.ca * sp - P.sa * cos lp_lat * sin lamt)
    / sqrt (1 - par.es * sp * sp))
  let tanph : T := log (tan (FORTPI + 0.5 * phidp))
  let sd : T := sin lamdp
  let sdsq : T := sd * sd
  let s : T := P.p22 * P.sa * cos lamdp * sqrt ((1 + P.t * sdsq)
    / ((1 + P.w * sdsq) * (1 + P.q * sdsq)))
  let d : T := sqrt (P.xj * P.xj + s * s)
  P.b * lamdp + P.a2 * sin (2 * lamdp) + P.a4 * sin (lamdp * 4) - tanph * s / d

/-- The closed-form `xy_y` of `fwd`, in the `if (l)` branch. -/
def fwdY (par : Parameters T) (P : par_lsat T) (lp_lat lamt lamdp : T) : T :=
  let sp : T := sin lp_lat
  let phidp : T := aasin ((par.one_es * P.ca * sp - P.sa * cos lp_lat * sin lamt)
    / sqrt (1 - par.es * sp * sp))
  let tanph : T := log (tan (FORTPI + 0.5 * phidp))
  let sd : T := sin lamdp
  let sdsq : T := sd * sd
  let s : T := P.p22 * P.sa * cos lamdp * sqrt ((1 + P.t * sdsq)
    / ((1 + P.w * sdsq) * (1 + P.q * sdsq)))
  let d : T := sqrt (P.xj * P.xj + s * s)
  P.c1 * sd + P.c3 * sin (lamdp * 3) + tanph * P.xj / d

/-- What `fwd` leaves in its three reference arguments that it writes. -/
structure FwdOut (T : Type) where
  lp_lat : T
  xy_x : Coord T
  xy_y : Coord T

/-- `base_lsat_ellipsoid::fwd(lp_lon, lp_lat, xy_x, xy_y)`. -/
def fwd (par : Parameters T) (P : par_lsat T) (lp_lon lp_lat : T) : FwdOut T :=
  let lp_lat : T := fwdClamp lp_lat
  let o : OuterOut T := fwdLoop par P lp_lon lp_lat
  if o.l ≠ 0 then
    ⟨lp_lat, Coord.val (fwdX par P lp_lat o.lamt o.lamdp),
      Coord.val (fwdY par P lp_lat o.lamt o.lamdp)⟩
  else ⟨lp_lat, Coord.HUGE_VAL, Coord.HUGE_VAL⟩

/-- One execution of the body of the `do ... while` loop of `inv`: the new `lamdp` and
the value of `s`. -/
def invBody (P : par_lsat T) (xy_x xy_y lamdp : T) : T × T :=
  let sd : T := sin lamdp
  let sdsq : T := sd * sd
  let s : T := P.p22 * P.sa * cos lamdp * sqrt ((1 + P.t * sdsq)
    / ((1 + P.w * sdsq) * (1 + P.q * sdsq)))
  let lamdp : T := xy_x + xy_y * s / P.xj - P.a2 * sin (2 * lamdp) - P.a4 * sin (lamdp * 4)
    - s / P.xj * (P.c1 * sin lamdp + P.c3 * sin (lamdp * 3))
  let lamdp : T := lamdp / P.b
  (lamdp, s)

/-- The loop `do { sav = lamdp; ... } while (fabs(lamdp - sav) >= TOL && --nn);` of
`inv`, entered with the given `nn` and `lamdp`; the result is `(lamdp, s)` on exit.
`inv` enters with `nn = 50`; an entry with `nn = 0` does not occur. -/
def invLoop (P : par_lsat T) (xy_x xy_y : T) : Nat → T → T × T
  | 0, lamdp => invBody P xy_x xy_y lamdp
  | nn + 1, sav =>
    let r : T × T := invBody P xy_x xy_y sav
    if |r.1 - sav| ≥ TOL ∧ nn ≠ 0 then invLoop P xy_x xy_y nn r.1 else r

/-- The estimate `lamdp` of `inv` after `k` executions of the loop body, were the loop
never left: `x / b` for `k = 0`. -/
def invEst (P : par_lsat T) (xy_x xy_y : T) (k : Nat) : T :=
  (fun lamdp => (invBody P xy_x xy_y lamdp).1)^[k] (xy_x / P.b)

/-- The lines of `inv` after the loop, from `sl = sin(lamdp)` on: `(lp_lon, lp_lat)` from
the last estimate `lamdp` and the last `s`. -/
def invTail (par : Parameters T) (P : par_lsat T) (xy_y lamdp s : T) : T × T :=
  let sl : T := sin lamdp
  let fac : T := exp (sqrt (1 + s * s / P.xj / P.xj) * (xy_y - P.c1 * sl
    - P.c3 * sin (lamdp * 3)))
  let phidp : T := 2 * (atan fac - FORTPI)
  let dd : T := sl * sl
  let lamdp : T := if |cos lamdp| < TOL then lamdp - TOL else lamdp
  let spp : T := sin phidp
  let sppsq : T := spp * spp
  let lamt : T := atan (((1 - sppsq * par.rone_es) * tan lamdp * P.ca
    - spp * P.sa * sqrt ((1 + P.q * dd) * (1 - sppsq) - sppsq * P.u) / cos lamdp)
    / (1 - sppsq * (1 + P.u)))
  let sl : T := if lamt ≥ 0 then 1 else -1
  let scl : T := if cos lamdp ≥ 0 then 1 else -1
  let lamt : T := lamt - HALFPI * (1 - scl) * sl
  let lp_lon : T := lamt - P.p22 * lamdp
  let lp_lat : T :=
    if |P.sa| < TOL then aasin (spp / sqrt (par.one_es * par.one_es + par.es * sppsq))
    else atan ((tan lamdp * cos lamt - P.ca * sin lamt) / (par.one_es * P.sa))
  (lp_lon, lp_lat)

/-- The line `if (fabs(cos(lamdp)) < TOL) lamdp -= TOL;` of `inv`: the estimate after the
nudge. -/
def invNudge (lamdp : T) : T :=
  if |cos lamdp| < TOL then lamdp - TOL else lamdp

/-- The value of `spp` in `inv`, from the last estimate `lamdp` and the last `s`. -/
def invSpp (P : par_lsat T) (xy_y lamdp s : T) : T :=
  sin (2 * (atan (exp (sqrt (1 + s * s / P.xj / P.xj) * (xy_y - P.c1 * sin lamdp
    - P.c3 * sin (lamdp * 3)))) - FORTPI))

/-- The value that the `atan` expression of `inv` gives to `lamt`, before the sign
correction. -/
def invLamt0 (par : Parameters T) (P : par_lsat T) (xy_y lamdp s : T) : T :=
  atan (((1 - invSpp P xy_y lamdp s * invSpp P xy_y lamdp s * par.rone_es)
      * tan (invNudge lamdp) * P.ca
    - invSpp P xy_y lamdp s * P.sa
      * sqrt ((1 + P.q * (sin lamdp * sin lamdp))
          * (1 - invSpp P xy_y lamdp s * invSpp P xy_y lamdp s)
        - invSpp P xy_y lamdp s * invSpp P xy_y lamdp s * P.u) / cos (invNudge lamdp))
    / (1 - invSpp P xy_y lamdp s * invSpp P xy_y lamdp s * (1 + P.u)))

/-- The value of `lamt` in `inv` after `lamt -= HALFPI * (1. - scl) * sl;`. -/
def invLamt (par : Parameters T) (P : par_lsat T) (xy_y lamdp s : T) : T :=
  invLamt0 par P xy_y lamdp s
    - HALFPI * (1 - (if cos (invNudge lamdp) ≥ 0 then 1 else -1))
      * (if invLamt0 par P xy_y lamdp s ≥ 0 then 1 else -1)

/-- `base_lsat_ellipsoid::inv(xy_x, xy_y, lp_lon, lp_lat)`: the pair `(lp_lon, lp_lat)`. -/
def inv (par : Parameters T) (P : par_lsat T) (xy_x xy_y : T) : T × T :=
  let lamdp : T := xy_x / P.b
  let r : T × T := invLoop P xy_x xy_y 50 lamdp
  invTail par P xy_y r.1 r.2

/-- No division by zero and no square root of a negative number in `seraz0(lam, _, Q)`:
the three radicands are non-negative and the divisors `1 + w*sdsq`,
`(1 + w*sdsq)*(1 + q*sdsq)`, `d__1*d__1` and `sq` are positive. -/
def serazSafe (lam : T) (Q : par_lsat T) : Prop :=
  0 ≤ (1 + Q.t * (sin (lam * d2r) * sin (lam * d2r)))
      / ((1 + Q.w * (sin (lam * d2r) * sin (lam * d2r)))
        * (1 + Q.q * (sin (lam * d2r) * sin (lam * d2r)))) ∧
  0 ≤ (1 + Q.q * (sin (lam * d2r) * sin (lam * d2r)))
      / (1 + Q.w * (sin (lam * d2r) * sin (lam * d2r))) ∧
  0 ≤ Q.xj * Q.xj + serazS lam Q * serazS lam Q ∧
  0 < 1 + Q.w * (sin (lam * d2r) * sin (lam * d2r)) ∧
  0 < (1 + Q.w * (sin (lam * d2r) * sin (lam * d2r)))
      * (1 + Q.q * (sin (lam * d2r) * sin (lam * d2r))) ∧
  0 < (1 + Q.q * (sin (lam * d2r) * sin (lam * d2r)))
      * (1 + Q.q * (sin (lam * d2r) * sin (lam * d2r))) ∧
  0 < sqrt (Q.xj * Q.xj + serazS lam Q * serazS lam Q)

/-- The unit sphere: `es = 0`, `one_es = 1`, `rone_es = 1` (and `lam0 = 0`). -/
def unitSphere : Parameters T := ⟨0, 0, 1, 1⟩

/-- A coefficient bundle on which the inner iteration of `fwd` at `(5π/6, π/4)` enters
the 2-cycle `π/4, π/3`: `p22 = -2`, `sa = √3/2`, `ca = 0`, `xj = 1`. -/
def cycleBundle : par_lsat T :=
  { a2 := 0, a4 := 0, b := 0, c1 := 0, c3 := 0, q := 0, t := 0, u := 0, w := 0,
    p22 := -2, sa := sqrt 3 / 2, ca := 0, xj := 1, rlm := 0, rlm2 := 0 }

/-- A coefficient bundle with the branch bounds `rlm`, `rlm2` of `setup_lsat`, `p22 = 1/3`,
`sa = 1`, `ca = 0`, `xj = 1`. -/
def thirdBundle : par_lsat T :=
  { a2 := 0, a4 := 0, b := 0, c1 := 0, c3 := 0, q := 0, t := 0, u := 0, w := 0,
    p22 := 1 / 3, sa := 1, ca := 0, xj := 1,
    rlm := ONEPI * (1 / 248 + 0.5161290322580645),
    rlm2 := ONEPI * (1 / 248 + 0.5161290322580645) + TWOPI }

end Defs

section Frame

variable {T : Type}

theorem sameConsts_refl (P : par_lsat T) : sameConsts P P := by
  simp [sameConsts]

theorem sameConsts_trans {P Q R : par_lsat T} (h1 : sameConsts P Q) (h2 : sameConsts Q R) :
    sameConsts P R := by
  obtain ⟨a1, a2, a3, a4, a5, a6, a7, a8, a9, a10⟩ := h1
  obtain ⟨b1, b2, b3, b4, b5, b6, b7, b8, b9, b10⟩ := h2
  exact ⟨a1.trans b1, a2.trans b2, a3.trans b3, a4.trans b4, a5.trans b5, a6.trans b6,
    a7.trans b7, a8.trans b8, a9.trans b9, a10.trans b10⟩

theorem setup_divide_fields [LinearOrderedField T] (P : par_lsat T) :
    sameConsts (setup_divide P) P ∧ (setup_divide P).b = P.b / 30 ∧
    (setup_divide P).a2 = P.a2 / 30 ∧ (setup_divide P).a4 = P.a4 / 60 ∧
    (setup_divide P).c1 = P.c1 / 15 ∧ (setup_divide P).c3 = P.c3 / 45 := by
  simp [setup_divide, sameConsts]

theorem setup_reset_fields [LinearOrderedField T] (P : par_lsat T) :
    sameConsts (setup_reset P) P ∧ (setup_reset P).a2 = 0 ∧ (setup_reset P).a4 = 0 ∧
    (setup_reset P).b = 0 ∧ (setup_reset P).c1 = 0 ∧ (setup_reset P).c3 = 0 := by
  simp [setup_reset, sameConsts]

/-- Two bundles with the same constants and the same five sums are equal. -/
theorem par_lsat_eq_of {P Q : par_lsat T} (hc : sameConsts P Q) (h1 : P.a2 = Q.a2)
    (h2 : P.a4 = Q.a4) (h3 : P.b = Q.b) (h4 : P.c1 = Q.c1) (h5 : P.c3 = Q.c3) : P = Q := by
  obtain ⟨a1, a2, a3, a4, a5, a6, a7, a8, a9, a10⟩ := hc
  cases P
  cases Q
  simp only [par_lsat.mk.injEq]
  exact ⟨h1, h2, h3, h4, h5, a1, a2, a3, a4, a5, a6, a7, a8, a9, a10⟩

theorem sameConsts_symm {P Q : par_lsat T} (h : sameConsts P Q) : sameConsts Q P := by
  obtain ⟨a1, a2, a3, a4, a5, a6, a7, a8, a9, a10⟩ := h
  exact ⟨a1.symm, a2.symm, a3.symm, a4.symm, a5.symm, a6.symm, a7.symm, a8.symm, a9.symm,
    a10.symm⟩

end Frame

section Setup

variable {T : Type} [LinearOrderedField T] [CalcFns T]

theorem serazLoop_done (mult hi : T) (fuel : Nat) (lam : T) (P : par_lsat T) (h : hi < lam) :
    serazLoop mult hi fuel lam P = some P := by
  cases fuel <;> simp [serazLoop, not_le.mpr h]

theorem serazLoop_step (mult hi : T) (fuel : Nat) (lam : T) (P : par_lsat T) (h : lam ≤ hi) :
    serazLoop mult hi (fuel + 1) lam P
      = serazLoop mult hi fuel (lam + 18) (seraz0 lam mult P) := by
  simp [serazLoop, h]

theorem serazLoop_stuck (mult hi : T) (lam : T) (P : par_lsat T) (h : lam ≤ hi) :
    serazLoop mult hi 0 lam P = none := by
  simp [serazLoop, h]

/-- The weight-4 loop runs its body at 9, 27, 45, 63, 81 and stops at 99. -/
theorem serazLoop_four (fuel : Nat) (hf : 5 ≤ fuel) (P : par_lsat T) :
    serazLoop 4 81.0001 fuel 9 P
      = some (seraz0 81 4 (seraz0 63 4 (seraz0 45 4 (seraz0 27 4 (seraz0 9 4 P))))) := by
  obtain ⟨k, rfl⟩ : ∃ k, fuel = k + 5 := ⟨fuel - 5, by omega⟩
  rw [serazLoop_step _ _ _ _ _ (by norm_num), serazLoop_step _ _ _ _ _ (by norm_num),
    serazLoop_step _ _ _ _ _ (by norm_num), serazLoop_step _ _ _ _ _ (by norm_num),
    serazLoop_step _ _ _ _ _ (by norm_num), serazLoop_done _ _ _ _ _ (by norm_num)]
  norm_num

/-- The weight-2 loop runs its body at 18, 36, 54, 72 and stops at 90. -/
theorem serazLoop_two (fuel : Nat) (hf : 4 ≤ fuel) (P : par_lsat T) :
    serazLoop 2 72.0001 fuel 18 P
      = some (seraz0 72 2 (seraz0 54 2 (seraz0 36 2 (seraz0 18 2 P)))) := by
  obtain ⟨k, rfl⟩ : ∃ k, fuel = k + 4 := ⟨fuel - 4, by omega⟩
  rw [serazLoop_step _ _ _ _ _ (by norm_num), serazLoop_step _ _ _ _ _ (by norm_num),
    serazLoop_step _ _ _ _ _ (by norm_num), serazLoop_step _ _ _ _ _ (by norm_num),
    serazLoop_done _ _ _ _ _ (by norm_num)]
  norm_num

theorem serazS_congr {P Q : par_lsat T} (h : sameConsts P Q) (lam : T) :
    serazS lam P = serazS lam Q := by
  obtain ⟨a1, a2, a3, a4, a5, a6, a7, a8, a9, a10⟩ := h
  simp only [serazS, a1, a2, a4, a5, a6]

theorem serazH_congr {P Q : par_lsat T} (h : sameConsts P Q) (lam : T) :
    serazH lam P = serazH lam Q := by
  obtain ⟨a1, a2, a3, a4, a5, a6, a7, a8, a9, a10⟩ := h
  simp only [serazH, a1, a4, a5, a7]

theorem serazF_congr {P Q : par_lsat T} (h : sameConsts P Q) (lam : T) :
    serazF lam P = serazF lam Q := by
  simp only [serazF, serazS_congr h, serazH_congr h, h.2.2.2.2.2.2.2.1]

theorem serazG_congr {P Q : par_lsat T} (h : sameConsts P Q) (lam : T) :
    serazG lam P = serazG lam Q := by
  simp only [serazG, serazS_congr h, serazH_congr h, h.2.2.2.2.2.2.2.1]

/-- The effect of one call of `seraz0`, field by field. -/
theorem seraz0_fields (lam mult : T) (P : par_lsat T) :
    sameConsts (seraz0 lam mult P) P ∧
    (seraz0 lam mult P).b = P.b + mult * serazF lam P ∧
    (seraz0 lam mult P).a2 = P.a2 + mult * (serazF lam P * CalcFns.cos (2 * (lam * d2r))) ∧
    (seraz0 lam mult P).a4 = P.a4 + mult * (serazF lam P * CalcFns.cos (4 * (lam * d2r))) ∧
    (seraz0 lam mult P).c1 = P.c1 + mult * (serazG lam P * CalcFns.cos (lam * d2r)) ∧
    (seraz0 lam mult P).c3 = P.c3 + mult * (serazG lam P * CalcFns.cos (3 * (lam * d2r))) := by
  have e2 : lam * d2r + lam * d2r = 2 * (lam * d2r) := by ring
  have e4 : lam * d2r * 4 = 4 * (lam * d2r) := by ring
  have e3 : lam * d2r * 3 = 3 * (lam * d2r) := by ring
  refine ⟨by simp [sameConsts, seraz0], ?_, ?_, ?_, ?_, ?_⟩ <;>
    simp only [seraz0, serazF, serazG, serazS, serazH, e2, e3, e4] <;> ring

/-- Folding `seraz0` over a list of samples: the constants stay, and each of the five
sums grows by the sum of the contributions of the samples, each evaluated on its own. -/
theorem seraz0_foldl (L : List (T × T)) : ∀ (P : par_lsat T),
    sameConsts (L.foldl (fun acc s => seraz0 s.1 s.2 acc) P) P ∧
    (L.foldl (fun acc s => seraz0 s.1 s.2 acc) P).b
      = P.b + (L.map fun s => s.2 * serazF s.1 P).sum ∧
    (L.foldl (fun acc s => seraz0 s.1 s.2 acc) P).a2
      = P.a2 + (L.map fun s => s.2 * (serazF s.1 P * CalcFns.cos (2 * (s.1 * d2r)))).sum ∧
    (L.foldl (fun acc s => seraz0 s.1 s.2 acc) P).a4
      = P.a4 + (L.map fun s => s.2 * (serazF s.1 P * CalcFns.cos (4 * (s.1 * d2r)))).sum ∧
    (L.foldl (fun acc s => seraz0 s.1 s.2 acc) P).c1
      = P.c1 + (L.map fun s => s.2 * (serazG s.1 P * CalcFns.cos (s.1 * d2r))).sum ∧
    (L.foldl (fun acc s => seraz0 s.1 s.2 acc) P).c3
      = P.c3 + (L.map fun s => s.2 * (serazG s.1 P * CalcFns.cos (3 * (s.1 * d2r)))).sum := by
  induction L with
  | nil => intro P; simp [sameConsts_refl]
  | cons x L ih =>
    intro P
    obtain ⟨hc, hb, ha2, ha4, hc1, hc3⟩ := seraz0_fields x.1 x.2 P
    obtain ⟨ic, ib, ia2, ia4, ic1, ic3⟩ := ih (seraz0 x.1 x.2 P)
    simp only [List.foldl_cons, List.map_cons, List.sum_cons]
    refine ⟨sameConsts_trans ic hc, ?_, ?_, ?_, ?_, ?_⟩
    · rw [ib, hb]; simp only [serazF_congr hc]; ring
    · rw [ia2, ha2]; simp only [serazF_congr hc]; ring
    · rw [ia4, ha4]; simp only [serazF_congr hc]; ring
    · rw [ic1, hc1]; simp only [serazG_congr hc]; ring
    · rw [ic3, hc3]; simp only [serazG_congr hc]; ring

/-- With fuel for five passes, the quadrature resets the five sums, calls `seraz0` on the
eleven samples in order and divides. -/
theorem setup_quadrature_eq (fuel : Nat) (hf : 5 ≤ fuel) (P : par_lsat T) :
    setup_quadrature fuel P
      = some (setup_divide ((samples : List (T × T)).foldl (fun acc s => seraz0 s.1 s.2 acc)
          (setup_reset P))) := by
  unfold setup_quadrature
  simp only [serazLoop_four fuel hf, serazLoop_two fuel (by omega), Option.some_bind, samples,
    List.foldl_cons, List.foldl_nil]

/-- With less fuel than five passes the quadrature does not finish. -/
theorem setup_quadrature_none (fuel : Nat) (hf : fuel < 5) (P : par_lsat T) :
    setup_quadrature fuel P = none := by
  unfold setup_quadrature
  have h9 : (9 : T) ≤ 81.0001 := by norm_num
  have h27 : (9 : T) + 18 ≤ 81.0001 := by norm_num
  have h45 : (9 : T) + 18 + 18 ≤ 81.0001 := by norm_num
  have h63 : (9 : T) + 18 + 18 + 18 ≤ 81.0001 := by norm_num
  have h81 : (9 : T) + 18 + 18 + 18 + 18 ≤ 81.0001 := by norm_num
  have : fuel = 0 ∨ fuel = 1 ∨ fuel = 2 ∨ fuel = 3 ∨ fuel = 4 := by omega
  rcases this with rfl | rfl | rfl | rfl | rfl <;>
    simp [serazLoop, h9, h27, h45, h63, h81]

theorem setup_lsat_bad_land (fuel : Nat) (land path : Int) (par : Parameters T)
    (pp : par_lsat T) (h : land ≤ 0 ∨ land > 5) :
    setup_lsat fuel land path par pp = some (Except.error (-28)) := by
  simp [setup_lsat, h]

theorem setup_lsat_bad_path (fuel : Nat) (land path : Int) (par : Parameters T)
    (pp : par_lsat T) (hl : ¬ (land ≤ 0 ∨ land > 5)) (h : path ≤ 0 ∨ path > pathBound land) :
    setup_lsat fuel land path par pp = some (Except.error (-29)) := by
  unfold pathBound at h
  simp only [setup_lsat, hl, h, if_true, if_false]

theorem setup_lsat_valid (fuel : Nat) (land path : Int) (par : Parameters T)
    (pp : par_lsat T) (hl : ¬ (land ≤ 0 ∨ land > 5)) (h : ¬ (path ≤ 0 ∨ path > pathBound land)) :
    setup_lsat fuel land path par pp
      = if land ≤ 3 then
          (setup_quadrature fuel
            (setup_consts (d2r * 99.092)
              { par with lam0 := d2r * 128.87 - TWOPI / 251 * (path : T) }
              { pp with p22 := 103.2669323 })).map fun P =>
              Except.ok ({ par with lam0 := d2r * 128.87 - TWOPI / 251 * (path : T) }, P)
        else
          (setup_quadrature fuel
            (setup_consts (d2r * 98.2)
              { par with lam0 := d2r * 129.3 - TWOPI / 233 * (path : T) }
              { pp with p22 := 98.8841202 })).map fun P =>
              Except.ok ({ par with lam0 := d2r * 129.3 - TWOPI / 233 * (path : T) }, P) := by
  unfold pathBound at h
  simp only [setup_lsat, hl, h, if_false]

/-- C1: for every satellite id and path (and every ellipsoid, prior parameter state and
loop fuel), `setup_lsat` fails with error code -28 if and only if the satellite id is
`<= 0` or `> 5`; the path plays no role. -/
theorem C1_invalid_satellite_iff (fuel : Nat) (land path : Int) (par : Parameters T)
    (pp : par_lsat T) :
    setup_lsat fuel land path par pp = some (Except.error (-28)) ↔ (land ≤ 0 ∨ land > 5) := by
  constructor
  · intro h
    by_contra hl
    by_cases hp : path ≤ 0 ∨ path > pathBound land
    · rw [setup_lsat_bad_path fuel land path par pp hl hp] at h
      simp at h
    · rw [setup_lsat_valid fuel land path par pp hl hp] at h
      split_ifs at h <;> simp [Option.map_eq_some'] at h
  · exact setup_lsat_bad_land fuel land path par pp

/-- C2: for every satellite id in [1,5] and every path, `setup_lsat` fails with error
code -29 if and only if the path is outside [1,251] (satellites 1, 2, 3) or outside
[1,233] (satellites 4, 5); for every other pair, with fuel for the five passes of the
longest quadrature loop, it succeeds and returns the updated parameters and
coefficients. -/
theorem C2_invalid_path_iff (fuel : Nat) (land path : Int) (par : Parameters T)
    (pp : par_lsat T) (h1 : 1 ≤ land) (h5 : land ≤ 5) :
    (setup_lsat fuel land path par pp = some (Except.error (-29))
        ↔ (path < 1 ∨ path > (if land ≤ 3 then 251 else 233))) ∧
    (5 ≤ fuel → 1 ≤ path → path ≤ (if land ≤ 3 then 251 else 233) →
        ∃ r, setup_lsat fuel land path par pp = some (Except.ok r)) := by
  have hl : ¬ (land ≤ 0 ∨ land > 5) := by omega
  refine ⟨⟨fun h => ?_, fun h => ?_⟩, fun hf hp1 hp2 => ?_⟩
  · by_contra hp
    have hp' : ¬ (path ≤ 0 ∨ path > pathBound land) := by unfold pathBound; omega
    rw [setup_lsat_valid fuel land path par pp hl hp'] at h
    split_ifs at h <;> simp [Option.map_eq_some'] at h
  · exact setup_lsat_bad_path fuel land path par pp hl (by unfold pathBound; omega)
  · have hp' : ¬ (path ≤ 0 ∨ path > pathBound land) := by unfold pathBound; omega
    rw [setup_lsat_valid fuel land path par pp hl hp']
    split_ifs <;> simp [setup_quadrature_eq fuel hf]

/-- C2, at satellite 1 and path 1 on the unit sphere. -/
theorem C2_invalid_path_iff_witness :
    ((1 : Int) ≤ 1 ∧ (1 : Int) ≤ 5) ∧
    ((setup_lsat 5 1 1 (⟨0, 0, 1, 1⟩ : Parameters ℝ) ⟨0, 0, 0, 0, 0, 0, 0, 0, 0, 0, 0, 0, 0, 0, 0⟩
          = some (Except.error (-29))
        ↔ ((1 : Int) < 1 ∨ (1 : Int) > (if (1 : Int) ≤ 3 then 251 else 233))) ∧
     (5 ≤ 5 → (1 : Int) ≤ 1 → (1 : Int) ≤ (if (1 : Int) ≤ 3 then 251 else 233) →
        ∃ r, setup_lsat 5 1 1 (⟨0, 0, 1, 1⟩ : Parameters ℝ)
          ⟨0, 0, 0, 0, 0, 0, 0, 0, 0, 0, 0, 0, 0, 0, 0⟩ = some (Except.ok r))) :=
  ⟨by decide, C2_invalid_path_iff 5 1 1 _ _ (by decide) (by decide)⟩

/-- The fields `p22`, `sa`, `ca` that `setup_consts` leaves. -/
theorem setup_consts_fields (alf : T) (par : Parameters T) (pp : par_lsat T) :
    (setup_consts alf par pp).p22 = pp.p22 / 1440 ∧
    (setup_consts alf par pp).sa = CalcFns.sin alf ∧
    (setup_consts alf par pp).ca
      = (if |CalcFns.cos alf| < 1e-9 then 1e-9 else CalcFns.cos alf) := by
  unfold setup_consts
  by_cases h : |CalcFns.cos alf| < 1e-9 <;> simp [h]

/-- The constants of `setup_consts` read `par` only in `es`, `one_es`, `rone_es`. -/
theorem setup_consts_par_congr (alf : T) (par par' : Parameters T) (pp : par_lsat T)
    (h1 : par.es = par'.es) (h2 : par.one_es = par'.one_es) (h3 : par.rone_es = par'.rone_es) :
    setup_consts alf par pp = setup_consts alf par' pp := by
  simp only [setup_consts, h1, h2, h3]

/-- The quadrature leaves the constants of the bundle it starts from. -/
theorem quadrature_consts (P : par_lsat T) :
    sameConsts (setup_divide ((samples : List (T × T)).foldl (fun acc s => seraz0 s.1 s.2 acc)
      (setup_reset P))) P :=
  sameConsts_trans (setup_divide_fields _).1
    (sameConsts_trans (seraz0_foldl (samples : List (T × T)) _).1 (setup_reset_fields P).1)

/-- The result of `setup_lsat` on valid input, with fuel for the quadrature. -/
theorem setup_lsat_ok (fuel : Nat) (land path : Int) (par : Parameters T) (pp : par_lsat T)
    (hf : 5 ≤ fuel) (h1 : 1 ≤ land) (h5 : land ≤ 5) (hp1 : 1 ≤ path)
    (hp2 : path ≤ (if land ≤ 3 then 251 else 233)) :
    setup_lsat fuel land path par pp
      = if land ≤ 3 then
          some (Except.ok ({ par with lam0 := d2r * 128.87 - TWOPI / 251 * (path : T) },
            setup_divide ((samples : List (T × T)).foldl (fun acc s => seraz0 s.1 s.2 acc)
              (setup_reset (setup_consts (d2r * 99.092)
                  { par with lam0 := d2r * 128.87 - TWOPI / 251 * (path : T) }
                  { pp with p22 := 103.2669323 })))))
        else
          some (Except.ok ({ par with lam0 := d2r * 129.3 - TWOPI / 233 * (path : T) },
            setup_divide ((samples : List (T × T)).foldl (fun acc s => seraz0 s.1 s.2 acc)
              (setup_reset (setup_consts (d2r * 98.2)
                  { par with lam0 := d2r * 129.3 - TWOPI / 233 * (path : T) }
                  { pp with p22 := 98.8841202 }))))) := by
  have hl : ¬ (land ≤ 0 ∨ land > 5) := by omega
  have hp : ¬ (path ≤ 0 ∨ path > pathBound land) := by unfold pathBound; omega
  rw [setup_lsat_valid fuel land path par pp hl hp]
  simp only [setup_quadrature_eq fuel hf, Option.map_some']

/-- The Simpson form of the sums that the quadrature of `setup_lsat` leaves. -/
theorem quadrature_simpson (P0 : par_lsat T) (hz : P0.a2 = 0 ∧ P0.a4 = 0 ∧ P0.b = 0 ∧
    P0.c1 = 0 ∧ P0.c3 = 0) (R : par_lsat T)
    (hR : R = setup_divide ((samples : List (T × T)).foldl (fun acc s => seraz0 s.1 s.2 acc) P0)) :
    sameConsts R P0 ∧
    R.b = (∑ i in Finset.range 11, simpsonWeight i * serazF (9 * (i : T)) R) / 30 ∧
    R.a2 = (∑ i in Finset.range 11, simpsonWeight i *
      (serazF (9 * (i : T)) R * CalcFns.cos (2 * (9 * (i : T) * d2r)))) / 30 ∧
    R.a4 = (∑ i in Finset.range 11, simpsonWeight i *
      (serazF (9 * (i : T)) R * CalcFns.cos (4 * (9 * (i : T) * d2r)))) / 60 ∧
    R.c1 = (∑ i in Finset.range 11, simpsonWeight i *
      (serazG (9 * (i : T)) R * CalcFns.cos (9 * (i : T) * d2r))) / 15 ∧
    R.c3 = (∑ i in Finset.range 11, simpsonWeight i *
      (serazG (9 * (i : T)) R * CalcFns.cos (3 * (9 * (i : T) * d2r)))) / 45 := by
  obtain ⟨z1, z2, z3, z4, z5⟩ := hz
  obtain ⟨fc, fb, fa2, fa4, fc1, fc3⟩ := seraz0_foldl (samples : List (T × T)) P0
  obtain ⟨dc, db, da2, da4, dc1, dc3⟩ := setup_divide_fields
    ((samples : List (T × T)).foldl (fun acc s => seraz0 s.1 s.2 acc) P0)
  have hc : sameConsts R P0 := by rw [hR]; exact sameConsts_trans dc fc
  refine ⟨hc, ?_, ?_, ?_, ?_, ?_⟩
  · rw [hR, db, fb, z3, ← hR]
    simp only [serazF_congr hc, samples, List.map_cons, List.map_nil, List.sum_cons,
      List.sum_nil, Finset.sum_range_succ, Finset.sum_range_zero, simpsonWeight]
    norm_num
    ring
  · rw [hR, da2, fa2, z1, ← hR]
    simp only [serazF_congr hc, samples, List.map_cons, List.map_nil, List.sum_cons,
      List.sum_nil, Finset.sum_range_succ, Finset.sum_range_zero, simpsonWeight]
    norm_num
    ring
  · rw [hR, da4, fa4, z2, ← hR]
    simp only [serazF_congr hc, samples, List.map_cons, List.map_nil, List.sum_cons,
      List.sum_nil, Finset.sum_range_succ, Finset.sum_range_zero, simpsonWeight]
    norm_num
    ring
  · rw [hR, dc1, fc1, z4, ← hR]
    simp only [serazG_congr hc, samples, List.map_cons, List.map_nil, List.sum_cons,
      List.sum_nil, Finset.sum_range_succ, Finset.sum_range_zero, simpsonWeight]
    norm_num
    ring
  · rw [hR, dc3, fc3, z5, ← hR]
    simp only [serazG_congr hc, samples, List.map_cons, List.map_nil, List.sum_cons,
      List.sum_nil, Finset.sum_range_succ, Finset.sum_range_zero, simpsonWeight]
    norm_num
    ring

/-- C7: on every valid configuration (with fuel for the five passes of the longest loop)
`setup_lsat` succeeds, and its coefficient bundle `R` is obtained from a bundle `P0` by
resetting `a2, a4, b, c1, c3` to 0, calling `seraz0` on the eleven samples in the order
`(0,1), (9,4), (27,4), (45,4), (63,4), (81,4), (18,2), (36,2), (54,2), (72,2), (90,1)`,
and dividing `a2` by 30, `a4` by 60, `b` by 30, `c1` by 15, `c3` by 45.  Each of the five
coefficients is the composite Simpson sum, weights `1,4,2,4,2,4,2,4,2,4,1` on the grid
`0, 9, ..., 90` degrees, of its harmonic integrand, divided by its divisor. -/
theorem C7_setup_quadrature (fuel : Nat) (land path : Int) (par : Parameters T)
    (pp : par_lsat T) (hf : 5 ≤ fuel) (h1 : 1 ≤ land) (h5 : land ≤ 5) (hp1 : 1 ≤ path)
    (hp2 : path ≤ (if land ≤ 3 then 251 else 233)) :
    ∃ (par' : Parameters T) (P0 R : par_lsat T),
      setup_lsat fuel land path par pp = some (Except.ok (par', R)) ∧
      R = setup_divide ((samples : List (T × T)).foldl (fun acc s => seraz0 s.1 s.2 acc)
            (setup_reset P0)) ∧
      R.b = (∑ i in Finset.range 11, simpsonWeight i * serazF (9 * (i : T)) R) / 30 ∧
      R.a2 = (∑ i in Finset.range 11, simpsonWeight i *
        (serazF (9 * (i : T)) R * CalcFns.cos (2 * (9 * (i : T) * d2r)))) / 30 ∧
      R.a4 = (∑ i in Finset.range 11, simpsonWeight i *
        (serazF (9 * (i : T)) R * CalcFns.cos (4 * (9 * (i : T) * d2r)))) / 60 ∧
      R.c1 = (∑ i in Finset.range 11, simpsonWeight i *
        (serazG (9 * (i : T)) R * CalcFns.cos (9 * (i : T) * d2r))) / 15 ∧
      R.c3 = (∑ i in Finset.range 11, simpsonWeight i *
        (serazG (9 * (i : T)) R * CalcFns.cos (3 * (9 * (i : T) * d2r)))) / 45 := by
  have hok := setup_lsat_ok fuel land path par pp hf h1 h5 hp1 hp2
  by_cases hg : land ≤ 3
  · simp only [hg, if_true] at hok
    exact ⟨_, setup_consts (d2r * 99.092)
        { par with lam0 := d2r * 128.87 - TWOPI / 251 * (path : T) }
        { pp with p22 := 103.2669323 }, _, hok, rfl,
      (quadrature_simpson _ (setup_reset_fields _).2 _ rfl).2⟩
  · simp only [hg, if_false] at hok
    exact ⟨_, setup_consts (d2r * 98.2)
        { par with lam0 := d2r * 129.3 - TWOPI / 233 * (path : T) }
        { pp with p22 := 98.8841202 }, _, hok, rfl,
      (quadrature_simpson _ (setup_reset_fields _).2 _ rfl).2⟩

/-- C7, at satellite 2 and path 17 on the unit sphere. -/
theorem C7_setup_quadrature_witness :
    (5 ≤ 5 ∧ (1 : Int) ≤ 2 ∧ (2 : Int) ≤ 5 ∧ (1 : Int) ≤ 17 ∧
      (17 : Int) ≤ (if (2 : Int) ≤ 3 then 251 else 233)) ∧
    ∃ (par' : Parameters ℝ) (P0 R : par_lsat ℝ),
      setup_lsat 5 2 17 (⟨0, 0, 1, 1⟩ : Parameters ℝ) ⟨0, 0, 0, 0, 0, 0, 0, 0, 0, 0, 0, 0, 0, 0, 0⟩ = some (Except.ok (par', R)) ∧
      R = setup_divide ((samples : List (ℝ × ℝ)).foldl (fun acc s => seraz0 s.1 s.2 acc)
            (setup_reset P0)) ∧
      R.b = (∑ i in Finset.range 11, simpsonWeight i * serazF (9 * (i : ℝ)) R) / 30 ∧
      R.a2 = (∑ i in Finset.range 11, simpsonWeight i *
        (serazF (9 * (i : ℝ)) R * CalcFns.cos (2 * (9 * (i : ℝ) * d2r)))) / 30 ∧
      R.a4 = (∑ i in Finset.range 11, simpsonWeight i *
        (serazF (9 * (i : ℝ)) R * CalcFns.cos (4 * (9 * (i : ℝ) * d2r)))) / 60 ∧
      R.c1 = (∑ i in Finset.range 11, simpsonWeight i *
        (serazG (9 * (i : ℝ)) R * CalcFns.cos (9 * (i : ℝ) * d2r))) / 15 ∧
      R.c3 = (∑ i in Finset.range 11, simpsonWeight i *
        (serazG (9 * (i : ℝ)) R * CalcFns.cos (3 * (9 * (i : ℝ) * d2r)))) / 45 :=
  ⟨by decide, C7_setup_quadrature 5 2 17 _ _ (by decide) (by decide) (by decide) (by decide)
    (by decide)⟩

/-- C8: on every valid `(land, path)` (with fuel for the quadrature) `setup_lsat`
succeeds with `lam0 = 128.87*(π/180) - (2π/251)*path`, `p22 = 103.2669323/1440` for
satellites 1, 2, 3 and `lam0 = 129.3*(π/180) - (2π/233)*path`, `p22 = 98.8841202/1440`
for satellites 4, 5.  Any other valid pair of the same group gives the same coefficient
bundle, whatever its path, and the same `par` too when the path is the same. -/
theorem C8_group_constants (fuel : Nat) (land path : Int) (par : Parameters T)
    (pp : par_lsat T) (hf : 5 ≤ fuel) (h1 : 1 ≤ land) (h5 : land ≤ 5) (hp1 : 1 ≤ path)
    (hp2 : path ≤ (if land ≤ 3 then 251 else 233)) :
    ∃ (par' : Parameters T) (R : par_lsat T),
      setup_lsat fuel land path par pp = some (Except.ok (par', R)) ∧
      (land ≤ 3 → par'.lam0 = 128.87 * (CalcFns.pi / 180) - (2 * CalcFns.pi / 251) * (path : T)
        ∧ R.p22 = 103.2669323 / 1440) ∧
      (3 < land → par'.lam0 = 129.3 * (CalcFns.pi / 180) - (2 * CalcFns.pi / 233) * (path : T)
        ∧ R.p22 = 98.8841202 / 1440) ∧
      (∀ land' path' : Int, 1 ≤ land' → land' ≤ 5 → (land' ≤ 3 ↔ land ≤ 3) → 1 ≤ path' →
        path' ≤ (if land' ≤ 3 then 251 else 233) →
        ∃ par'' : Parameters T,
          setup_lsat fuel land' path' par pp = some (Except.ok (par'', R)) ∧
          (path' = path → par'' = par')) := by
  have hok := setup_lsat_ok fuel land path par pp hf h1 h5 hp1 hp2
  by_cases hg : land ≤ 3
  · simp only [hg, if_true] at hok
    refine ⟨_, _, hok, fun _ => ⟨?_, ?_⟩, fun h => absurd hg (by omega), ?_⟩
    · simp only [d2r, TWOPI]; ring
    · rw [(quadrature_consts _).2.2.2.2.1]
      exact (setup_consts_fields _ _ _).1
    · intro land' path' g1 g5 gg gp1 gp2
      have hok' := setup_lsat_ok fuel land' path' par pp hf g1 g5 gp1 gp2
      have hg' : land' ≤ 3 := gg.mpr hg
      simp only [hg', if_true] at hok'
      refine ⟨{ par with lam0 := d2r * 128.87 - TWOPI / 251 * (path' : T) }, ?_, ?_⟩
      · rw [hok']
        rw [setup_consts_par_congr (d2r * 99.092)
          { par with lam0 := d2r * 128.87 - TWOPI / 251 * (path' : T) }
          { par with lam0 := d2r * 128.87 - TWOPI / 251 * (path : T) } _ rfl rfl rfl]
      · intro e; rw [e]
  · simp only [hg, if_false] at hok
    refine ⟨_, _, hok, fun h => absurd h hg, fun _ => ⟨?_, ?_⟩, ?_⟩
    · simp only [d2r, TWOPI]; ring
    · rw [(quadrature_consts _).2.2.2.2.1]
      exact (setup_consts_fields _ _ _).1
    · intro land' path' g1 g5 gg gp1 gp2
      have hok' := setup_lsat_ok fuel land' path' par pp hf g1 g5 gp1 gp2
      have hg' : ¬ land' ≤ 3 := fun h => hg (gg.mp h)
      simp only [hg', if_false] at hok'
      refine ⟨{ par with lam0 := d2r * 129.3 - TWOPI / 233 * (path' : T) }, ?_, ?_⟩
      · rw [hok']
        rw [setup_consts_par_congr (d2r * 98.2)
          { par with lam0 := d2r * 129.3 - TWOPI / 233 * (path' : T) }
          { par with lam0 := d2r * 129.3 - TWOPI / 233 * (path : T) } _ rfl rfl rfl]
      · intro e; rw [e]

/-- C8, at satellite 1 and path 1 on the unit sphere. -/
theorem C8_group_constants_witness :
    (5 ≤ 5 ∧ (1 : Int) ≤ 1 ∧ (1 : Int) ≤ 5 ∧ (1 : Int) ≤ 1 ∧
      (1 : Int) ≤ (if (1 : Int) ≤ 3 then 251 else 233)) ∧
    ∃ (par' : Parameters ℝ) (R : par_lsat ℝ),
      setup_lsat 5 1 1 (⟨0, 0, 1, 1⟩ : Parameters ℝ) ⟨0, 0, 0, 0, 0, 0, 0, 0, 0, 0, 0, 0, 0, 0, 0⟩ = some (Except.ok (par', R)) ∧
      ((1 : Int) ≤ 3 → par'.lam0
          = 128.87 * (CalcFns.pi / 180) - (2 * CalcFns.pi / 251) * (((1 : Int)) : ℝ)
        ∧ R.p22 = 103.2669323 / 1440) ∧
      ((3 : Int) < 1 → par'.lam0
          = 129.3 * (CalcFns.pi / 180) - (2 * CalcFns.pi / 233) * (((1 : Int)) : ℝ)
        ∧ R.p22 = 98.8841202 / 1440) ∧
      (∀ land' path' : Int, 1 ≤ land' → land' ≤ 5 → (land' ≤ 3 ↔ (1 : Int) ≤ 3) → 1 ≤ path' →
        path' ≤ (if land' ≤ 3 then 251 else 233) →
        ∃ par'' : Parameters ℝ,
          setup_lsat 5 land' path' (⟨0, 0, 1, 1⟩ : Parameters ℝ) ⟨0, 0, 0, 0, 0, 0, 0, 0, 0, 0, 0, 0, 0, 0, 0⟩ = some (Except.ok (par'', R)) ∧
          (path' = 1 → par'' = par')) :=
  ⟨by decide, C8_group_constants 5 1 1 _ _ (by decide) (by decide) (by decide) (by decide)
    (by decide)⟩

/-- C9: for every inclination `alf`, the `ca` that the constants step of `setup_lsat`
stores is `1e-9` when `|cos alf| < 1e-9` (so when `cos alf = 0`) and `cos alf`
otherwise; it is never zero and
`|ca| ≥ 1e-9`; the quadrature does not change it.  So on every valid configuration the
bundle `R` that `setup_lsat` returns has `R.ca ≠ 0` and `|R.ca| ≥ 1e-9`. -/
theorem C9_ca_never_zero (alf : T) (fuel : Nat) (land path : Int) (par : Parameters T)
    (pp : par_lsat T) (hf : 5 ≤ fuel) (h1 : 1 ≤ land) (h5 : land ≤ 5) (hp1 : 1 ≤ path)
    (hp2 : path ≤ (if land ≤ 3 then 251 else 233)) :
    (setup_consts alf par pp).ca
      = (if |CalcFns.cos alf| < 1e-9 then 1e-9 else CalcFns.cos alf) ∧
    (CalcFns.cos alf = 0 → (setup_consts alf par pp).ca = 1e-9) ∧
    (setup_consts alf par pp).ca ≠ 0 ∧
    |(setup_consts alf par pp).ca| ≥ 1e-9 ∧
    (∃ R, setup_quadrature fuel (setup_consts alf par pp) = some R ∧
      R.ca = (setup_consts alf par pp).ca) ∧
    (∃ (par' : Parameters T) (R : par_lsat T),
      setup_lsat fuel land path par pp = some (Except.ok (par', R)) ∧
      R.ca ≠ 0 ∧ |R.ca| ≥ 1e-9) := by
  have key : ∀ (a : T) (q : Parameters T) (p : par_lsat T),
      |(setup_consts a q p).ca| ≥ 1e-9 := by
    intro a q p
    rw [(setup_consts_fields a q p).2.2]
    by_cases h : |CalcFns.cos a| < 1e-9
    · rw [if_pos h, abs_of_pos (by norm_num)]
    · rw [if_neg h]; exact not_lt.mp h
  have nz : ∀ x : T, |x| ≥ 1e-9 → x ≠ 0 := by
    intro x hx h0
    rw [h0, abs_zero] at hx
    norm_num at hx
  refine ⟨(setup_consts_fields alf par pp).2.2, ?_, nz _ (key alf par pp), key alf par pp,
    ⟨_, setup_quadrature_eq fuel hf _, (quadrature_consts _).2.2.2.2.2.2.1⟩, ?_⟩
  · intro h0
    rw [(setup_consts_fields alf par pp).2.2, h0, abs_zero, if_pos (by norm_num)]
  have hok := setup_lsat_ok fuel land path par pp hf h1 h5 hp1 hp2
  by_cases hg : land ≤ 3
  · simp only [hg, if_true] at hok
    refine ⟨_, _, hok, ?_⟩
    rw [(quadrature_consts _).2.2.2.2.2.2.1]
    exact ⟨nz _ (key _ _ _), key _ _ _⟩
  · simp only [hg, if_false] at hok
    refine ⟨_, _, hok, ?_⟩
    rw [(quadrature_consts _).2.2.2.2.2.2.1]
    exact ⟨nz _ (key _ _ _), key _ _ _⟩

/-- C9, at the inclination `π/2`, whose cosine is exactly 0, and satellite 4, path 233. -/
theorem C9_ca_never_zero_witness :
    (5 ≤ 5 ∧ (1 : Int) ≤ 4 ∧ (4 : Int) ≤ 5 ∧ (1 : Int) ≤ 233 ∧
      (233 : Int) ≤ (if (4 : Int) ≤ 3 then 251 else 233)) ∧
    ((setup_consts (Real.pi / 2) (⟨0, 0, 1, 1⟩ : Parameters ℝ) ⟨0, 0, 0, 0, 0, 0, 0, 0, 0, 0, 0, 0, 0, 0, 0⟩).ca
      = (if |CalcFns.cos (Real.pi / 2)| < 1e-9 then 1e-9 else CalcFns.cos (Real.pi / 2)) ∧
    (CalcFns.cos (Real.pi / 2) = 0 →
      (setup_consts (Real.pi / 2) (⟨0, 0, 1, 1⟩ : Parameters ℝ)
        ⟨0, 0, 0, 0, 0, 0, 0, 0, 0, 0, 0, 0, 0, 0, 0⟩).ca = 1e-9) ∧
    (setup_consts (Real.pi / 2) (⟨0, 0, 1, 1⟩ : Parameters ℝ) ⟨0, 0, 0, 0, 0, 0, 0, 0, 0, 0, 0, 0, 0, 0, 0⟩).ca ≠ 0 ∧
    |(setup_consts (Real.pi / 2) (⟨0, 0, 1, 1⟩ : Parameters ℝ) ⟨0, 0, 0, 0, 0, 0, 0, 0, 0, 0, 0, 0, 0, 0, 0⟩).ca| ≥ 1e-9 ∧
    (∃ R, setup_quadrature 5 (setup_consts (Real.pi / 2) (⟨0, 0, 1, 1⟩ : Parameters ℝ) ⟨0, 0, 0, 0, 0, 0, 0, 0, 0, 0, 0, 0, 0, 0, 0⟩) = some R ∧
      R.ca = (setup_consts (Real.pi / 2) (⟨0, 0, 1, 1⟩ : Parameters ℝ) ⟨0, 0, 0, 0, 0, 0, 0, 0, 0, 0, 0, 0, 0, 0, 0⟩).ca) ∧
    (∃ (par' : Parameters ℝ) (R : par_lsat ℝ),
      setup_lsat 5 4 233 (⟨0, 0, 1, 1⟩ : Parameters ℝ) ⟨0, 0, 0, 0, 0, 0, 0, 0, 0, 0, 0, 0, 0, 0, 0⟩ = some (Except.ok (par', R)) ∧
      R.ca ≠ 0 ∧ |R.ca| ≥ 1e-9)) :=
  ⟨by decide, C9_ca_never_zero (Real.pi / 2) 5 4 233 _ _ (by decide) (by decide) (by decide)
    (by decide) (by decide)⟩

/-- The fields `w`, `q`, `t`, `xj` that `setup_consts` leaves, in terms of its `ca`. -/
theorem setup_consts_shape (alf : T) (par : Parameters T) (pp : par_lsat T) :
    (setup_consts alf par pp).w
      = (1 - par.es * (setup_consts alf par pp).ca * (setup_consts alf par pp).ca)
          * par.rone_es
        * ((1 - par.es * (setup_consts alf par pp).ca * (setup_consts alf par pp).ca)
          * par.rone_es) - 1 ∧
    (setup_consts alf par pp).q = par.es * CalcFns.sin alf * CalcFns.sin alf * par.rone_es ∧
    (setup_consts alf par pp).t
      = par.es * CalcFns.sin alf * CalcFns.sin alf * (2 - par.es) * par.rone_es
          * par.rone_es ∧
    (setup_consts alf par pp).xj = par.one_es * par.one_es * par.one_es := by
  unfold setup_consts
  by_cases h : |CalcFns.cos alf| < 1e-9 <;> simp [h]

/-- The state of the quadrature after any number of samples has the constants of the
bundle the quadrature started from. -/
theorem quadrature_prefix_consts (n : Nat) (P : par_lsat T) :
    sameConsts (((samples : List (T × T)).take n).foldl (fun acc s => seraz0 s.1 s.2 acc)
      (setup_reset P)) P :=
  sameConsts_trans (seraz0_foldl ((samples : List (T × T)).take n) _).1 (setup_reset_fields P).1

/-- The integrands of `seraz0` read only `p22`, `sa`, `ca`, `t`, `w`, `q`, `xj`. -/
theorem serazFG_congr (lam : T) (P Q : par_lsat T) (h1 : Q.p22 = P.p22) (h2 : Q.sa = P.sa)
    (h3 : Q.ca = P.ca) (h4 : Q.t = P.t) (h5 : Q.w = P.w) (h6 : Q.q = P.q) (h7 : Q.xj = P.xj) :
    serazF lam Q = serazF lam P ∧ serazG lam Q = serazG lam P := by
  simp only [serazF, serazG, serazS, serazH, h1, h2, h3, h4, h5, h6, h7, and_self]

/-- C13: `seraz0(lam, mult, P)` leaves `q, t, u, w, p22, sa, ca, xj, rlm, rlm2` as they
are and adds to each of `b, a2, a4, c1, c3` a term: `b += f`, `a2 += f*cos(2λ)`,
`a4 += f*cos(4λ)`, `c1 += g*cos(λ)`, `c3 += g*cos(3λ)`, with `λ = lam*π/180`,
`f = mult * serazF lam P` and `g = mult * serazG lam P`.  The factors `serazF`, `serazG`
are the same on every bundle that agrees with `P` on `p22, sa, ca, t, w, q, xj`, so `f`
and `g` are linear in `mult` and do not depend on the current `b, a2, a4, c1, c3`. -/
theorem C13_seraz0_accumulates (lam mult : T) (P : par_lsat T) :
    ((seraz0 lam mult P).q = P.q ∧ (seraz0 lam mult P).t = P.t ∧ (seraz0 lam mult P).u = P.u ∧
      (seraz0 lam mult P).w = P.w ∧ (seraz0 lam mult P).p22 = P.p22 ∧
      (seraz0 lam mult P).sa = P.sa ∧ (seraz0 lam mult P).ca = P.ca ∧
      (seraz0 lam mult P).xj = P.xj ∧ (seraz0 lam mult P).rlm = P.rlm ∧
      (seraz0 lam mult P).rlm2 = P.rlm2) ∧
    (seraz0 lam mult P).b = P.b + mult * serazF lam P ∧
    (seraz0 lam mult P).a2 = P.a2 + mult * serazF lam P * CalcFns.cos (2 * (lam * d2r)) ∧
    (seraz0 lam mult P).a4 = P.a4 + mult * serazF lam P * CalcFns.cos (4 * (lam * d2r)) ∧
    (seraz0 lam mult P).c1 = P.c1 + mult * serazG lam P * CalcFns.cos (lam * d2r) ∧
    (seraz0 lam mult P).c3 = P.c3 + mult * serazG lam P * CalcFns.cos (3 * (lam * d2r)) ∧
    (∀ Q : par_lsat T, Q.p22 = P.p22 → Q.sa = P.sa → Q.ca = P.ca → Q.t = P.t → Q.w = P.w →
      Q.q = P.q → Q.xj = P.xj → serazF lam Q = serazF lam P ∧ serazG lam Q = serazG lam P) := by
  obtain ⟨hc, hb, ha2, ha4, hc1, hc3⟩ := seraz0_fields lam mult P
  refine ⟨hc, hb, ?_, ?_, ?_, ?_, fun Q => serazFG_congr lam P Q⟩
  · rw [ha2, mul_assoc]
  · rw [ha4, mul_assoc]
  · rw [hc1, mul_assoc]
  · rw [hc3, mul_assoc]

/-- The fold of `seraz0` over a permutation of a list of samples gives the same bundle. -/
theorem seraz0_foldl_perm {L M : List (T × T)} (h : L.Perm M) (P : par_lsat T) :
    L.foldl (fun acc s => seraz0 s.1 s.2 acc) P = M.foldl (fun acc s => seraz0 s.1 s.2 acc) P := by
  obtain ⟨lc, lb, la2, la4, lc1, lc3⟩ := seraz0_foldl L P
  obtain ⟨mc, mb, ma2, ma4, mc1, mc3⟩ := seraz0_foldl M P
  refine par_lsat_eq_of (sameConsts_trans lc (sameConsts_symm mc)) ?_ ?_ ?_ ?_ ?_
  · rw [la2, ma2, (h.map _).sum_eq]
  · rw [la4, ma4, (h.map _).sum_eq]
  · rw [lb, mb, (h.map _).sum_eq]
  · rw [lc1, mc1, (h.map _).sum_eq]
  · rw [lc3, mc3, (h.map _).sum_eq]

/-- C16: over exact arithmetic the coefficients that `setup_lsat` returns do not depend
on the order of the eleven samples: for every permutation `L` of the sample list, folding
`seraz0` over `L` from the reset bundle gives the bundle that the source order gives, so
`setup_lsat` returns `setup_divide` of the fold over `L`; and each of the five sums is
the sum of the eleven contributions evaluated one by one on the constants. -/
theorem C16_quadrature_order_free (L : List (T × T)) (fuel : Nat) (land path : Int)
    (par : Parameters T) (pp : par_lsat T) (hL : L.Perm samples) (hf : 5 ≤ fuel)
    (h1 : 1 ≤ land) (h5 : land ≤ 5) (hp1 : 1 ≤ path)
    (hp2 : path ≤ (if land ≤ 3 then 251 else 233)) :
    (∀ P : par_lsat T,
      L.foldl (fun acc s => seraz0 s.1 s.2 acc) (setup_reset P)
        = (samples : List (T × T)).foldl (fun acc s => seraz0 s.1 s.2 acc) (setup_reset P) ∧
      (L.foldl (fun acc s => seraz0 s.1 s.2 acc) (setup_reset P)).b
        = ((samples : List (T × T)).map fun s => s.2 * serazF s.1 P).sum ∧
      (L.foldl (fun acc s => seraz0 s.1 s.2 acc) (setup_reset P)).a2
        = ((samples : List (T × T)).map fun s =>
            s.2 * (serazF s.1 P * CalcFns.cos (2 * (s.1 * d2r)))).sum ∧
      (L.foldl (fun acc s => seraz0 s.1 s.2 acc) (setup_reset P)).a4
        = ((samples : List (T × T)).map fun s =>
            s.2 * (serazF s.1 P * CalcFns.cos (4 * (s.1 * d2r)))).sum ∧
      (L.foldl (fun acc s => seraz0 s.1 s.2 acc) (setup_reset P)).c1
        = ((samples : List (T × T)).map fun s =>
            s.2 * (serazG s.1 P * CalcFns.cos (s.1 * d2r))).sum ∧
      (L.foldl (fun acc s => seraz0 s.1 s.2 acc) (setup_reset P)).c3
        = ((samples : List (T × T)).map fun s =>
            s.2 * (serazG s.1 P * CalcFns.cos (3 * (s.1 * d2r)))).sum) ∧
    (∃ (par' : Parameters T) (P0 : par_lsat T),
      setup_lsat fuel land path par pp
        = some (Except.ok (par',
            setup_divide (L.foldl (fun acc s => seraz0 s.1 s.2 acc) (setup_reset P0))))) := by
  constructor
  · intro P
    obtain ⟨rc, ra2, ra4, rb, rc1, rc3⟩ := setup_reset_fields P
    obtain ⟨-, fb, fa2, fa4, fc1, fc3⟩ := seraz0_foldl (samples : List (T × T)) (setup_reset P)
    rw [seraz0_foldl_perm hL (setup_reset P)]
    refine ⟨rfl, ?_, ?_, ?_, ?_, ?_⟩
    · rw [fb, rb, zero_add]; simp only [serazF_congr rc]
    · rw [fa2, ra2, zero_add]; simp only [serazF_congr rc]
    · rw [fa4, ra4, zero_add]; simp only [serazF_congr rc]
    · rw [fc1, rc1, zero_add]; simp only [serazG_congr rc]
    · rw [fc3, rc3, zero_add]; simp only [serazG_congr rc]
  · have hok := setup_lsat_ok fuel land path par pp hf h1 h5 hp1 hp2
    by_cases hg : land ≤ 3
    · simp only [hg, if_true] at hok
      exact ⟨_, _, by rw [hok, seraz0_foldl_perm hL]⟩
    · simp only [hg, if_false] at hok
      exact ⟨_, _, by rw [hok, seraz0_foldl_perm hL]⟩

/-- C16, for the reversed sample list at satellite 3 and path 251 on the unit sphere. -/
theorem C16_quadrature_order_free_witness :
    (((samples : List (ℝ × ℝ)).reverse).Perm samples ∧ 5 ≤ 5 ∧ (1 : Int) ≤ 3 ∧ (3 : Int) ≤ 5 ∧
      (1 : Int) ≤ 251 ∧ (251 : Int) ≤ (if (3 : Int) ≤ 3 then 251 else 233)) ∧
    ((∀ P : par_lsat ℝ,
      ((samples : List (ℝ × ℝ)).reverse).foldl (fun acc s => seraz0 s.1 s.2 acc) (setup_reset P)
        = (samples : List (ℝ × ℝ)).foldl (fun acc s => seraz0 s.1 s.2 acc) (setup_reset P) ∧
      (((samples : List (ℝ × ℝ)).reverse).foldl (fun acc s => seraz0 s.1 s.2 acc)
          (setup_reset P)).b
        = ((samples : List (ℝ × ℝ)).map fun s => s.2 * serazF s.1 P).sum ∧
      (((samples : List (ℝ × ℝ)).reverse).foldl (fun acc s => seraz0 s.1 s.2 acc)
          (setup_reset P)).a2
        = ((samples : List (ℝ × ℝ)).map fun s =>
            s.2 * (serazF s.1 P * CalcFns.cos (2 * (s.1 * d2r)))).sum ∧
      (((samples : List (ℝ × ℝ)).reverse).foldl (fun acc s => seraz0 s.1 s.2 acc)
          (setup_reset P)).a4
        = ((samples : List (ℝ × ℝ)).map fun s =>
            s.2 * (serazF s.1 P * CalcFns.cos (4 * (s.1 * d2r)))).sum ∧
      (((samples : List (ℝ × ℝ)).reverse).foldl (fun acc s => seraz0 s.1 s.2 acc)
          (setup_reset P)).c1
        = ((samples : List (ℝ × ℝ)).map fun s =>
            s.2 * (serazG s.1 P * CalcFns.cos (s.1 * d2r))).sum ∧
      (((samples : List (ℝ × ℝ)).reverse).foldl (fun acc s => seraz0 s.1 s.2 acc)
          (setup_reset P)).c3
        = ((samples : List (ℝ × ℝ)).map fun s =>
            s.2 * (serazG s.1 P * CalcFns.cos (3 * (s.1 * d2r)))).sum) ∧
    (∃ (par' : Parameters ℝ) (P0 : par_lsat ℝ),
      setup_lsat 5 3 251 (⟨0, 0, 1, 1⟩ : Parameters ℝ) ⟨0, 0, 0, 0, 0, 0, 0, 0, 0, 0, 0, 0, 0, 0, 0⟩
        = some (Except.ok (par',
            setup_divide (((samples : List (ℝ × ℝ)).reverse).foldl
              (fun acc s => seraz0 s.1 s.2 acc) (setup_reset P0)))))) :=
  ⟨⟨List.reverse_perm _, by decide⟩,
    C16_quadrature_order_free _ 5 3 251 _ _ (List.reverse_perm _) (by decide) (by decide)
      (by decide) (by decide) (by decide)⟩

end Setup

section Forward

variable {T : Type} [LinearOrderedField T] [CalcFns T]

theorem fwdInner_succ (par : Parameters T) (P : par_lsat T) (lp_lon tanphi fac : T)
    (l : Nat) (sav lamt lamdp : T) :
    fwdInner par P lp_lon tanphi fac (l + 1) sav lamt lamdp
      = if |(|sav| - |(fwdBody par P lp_lon tanphi fac sav).2|)| < TOL then
          ⟨l + 1, (fwdBody par P lp_lon tanphi fac sav).1,
            (fwdBody par P lp_lon tanphi fac sav).2, 1, true⟩
        else
          { fwdInner par P lp_lon tanphi fac l (fwdBody par P lp_lon tanphi fac sav).2
              (fwdBody par P lp_lon tanphi fac sav).1
              (fwdBody par P lp_lon tanphi fac sav).2 with
            steps := (fwdInner par P lp_lon tanphi fac l (fwdBody par P lp_lon tanphi fac sav).2
              (fwdBody par P lp_lon tanphi fac sav).1
              (fwdBody par P lp_lon tanphi fac sav).2).steps + 1 } := by
  simp only [fwdInner]

/-- The ghost fields of the inner loop in terms of the estimates: `met` is false exactly
when the tolerance test fails at every one of the `l` steps; when it is true, the test
holds at step `steps` for the first time and `lamdp` is the estimate of that step. -/
theorem fwdInner_met (par : Parameters T) (P : par_lsat T) (lp_lon tanphi fac : T) :
    ∀ (l : Nat) (sav lamt lamdp : T),
      ((fwdInner par P lp_lon tanphi fac l sav lamt lamdp).met = false ↔
        ∀ k, k < l → ¬ |(|fwdEst par P lp_lon tanphi fac sav k|
          - |fwdEst par P lp_lon tanphi fac sav (k + 1)|)| < TOL) ∧
      ((fwdInner par P lp_lon tanphi fac l sav lamt lamdp).met = true →
        1 ≤ (fwdInner par P lp_lon tanphi fac l sav lamt lamdp).steps ∧
        (fwdInner par P lp_lon tanphi fac l sav lamt lamdp).lamdp
          = fwdEst par P lp_lon tanphi fac sav
              (fwdInner par P lp_lon tanphi fac l sav lamt lamdp).steps ∧
        |(|fwdEst par P lp_lon tanphi fac sav
              ((fwdInner par P lp_lon tanphi fac l sav lamt lamdp).steps - 1)|
          - |fwdEst par P lp_lon tanphi fac sav
              (fwdInner par P lp_lon tanphi fac l sav lamt lamdp).steps|)| < TOL ∧
        ∀ k, k + 1 < (fwdInner par P lp_lon tanphi fac l sav lamt lamdp).steps →
          ¬ |(|fwdEst par P lp_lon tanphi fac sav k|
            - |fwdEst par P lp_lon tanphi fac sav (k + 1)|)| < TOL) := by
  intro l
  induction l with
  | zero => intro sav lamt lamdp; simp [fwdInner]
  | succ l ih =>
    intro sav lamt lamdp
    rw [fwdInner_succ]
    have est_succ : ∀ k, fwdEst par P lp_lon tanphi fac sav (k + 1)
        = fwdEst par P lp_lon tanphi fac (fwdBody par P lp_lon tanphi fac sav).2 k := by
      intro k
      simp [fwdEst, Function.iterate_succ_apply]
    have est_zero : fwdEst par P lp_lon tanphi fac sav 0 = sav := rfl
    by_cases h : |(|sav| - |(fwdBody par P lp_lon tanphi fac sav).2|)| < TOL
    · rw [if_pos h]
      refine ⟨⟨fun hm => Bool.noConfusion hm, fun hall => ?_⟩, fun _ => ⟨le_refl 1, ?_, ?_, ?_⟩⟩
      · exact absurd (by rw [est_zero, est_succ]; exact h) (hall 0 (Nat.succ_pos l))
      · show (fwdBody par P lp_lon tanphi fac sav).2 = fwdEst par P lp_lon tanphi fac sav 1
        rw [est_succ]; rfl
      · show |(|fwdEst par P lp_lon tanphi fac sav 0|
          - |fwdEst par P lp_lon tanphi fac sav 1|)| < TOL
        rw [est_zero, est_succ]; exact h
      · intro k hk
        exact absurd hk (by simp)
    · rw [if_neg h]
      obtain ⟨i1, i2⟩ := ih (fwdBody par P lp_lon tanphi fac sav).2
        (fwdBody par P lp_lon tanphi fac sav).1 (fwdBody par P lp_lon tanphi fac sav).2
      refine ⟨⟨fun hm k hk => ?_, fun hall => ?_⟩, fun hm => ?_⟩
      · rcases Nat.eq_zero_or_pos k with rfl | hpos
        · rw [est_zero, est_succ]; exact h
        · obtain ⟨j, rfl⟩ : ∃ j, k = j + 1 := ⟨k - 1, by omega⟩
          rw [est_succ, est_succ]
          exact i1.mp hm j (by omega)
      · refine i1.mpr fun k hk => ?_
        have := hall (k + 1) (by omega)
        rwa [est_succ, est_succ] at this
      · obtain ⟨j1, j2, j3, j4⟩ := i2 hm
        refine ⟨Nat.succ_pos _, ?_, ?_, ?_⟩
        · show (fwdInner par P lp_lon tanphi fac l (fwdBody par P lp_lon tanphi fac sav).2
            (fwdBody par P lp_lon tanphi fac sav).1
            (fwdBody par P lp_lon tanphi fac sav).2).lamdp = _
          rw [j2, ← est_succ]
        · show |(|fwdEst par P lp_lon tanphi fac sav
              ((fwdInner par P lp_lon tanphi fac l (fwdBody par P lp_lon tanphi fac sav).2
                (fwdBody par P lp_lon tanphi fac sav).1
                (fwdBody par P lp_lon tanphi fac sav).2).steps + 1 - 1)|
            - |fwdEst par P lp_lon tanphi fac sav
              ((fwdInner par P lp_lon tanphi fac l (fwdBody par P lp_lon tanphi fac sav).2
                (fwdBody par P lp_lon tanphi fac sav).1
                (fwdBody par P lp_lon tanphi fac sav).2).steps + 1)|)| < TOL
          obtain ⟨m, hm'⟩ : ∃ m, (fwdInner par P lp_lon tanphi fac l
              (fwdBody par P lp_lon tanphi fac sav).2 (fwdBody par P lp_lon tanphi fac sav).1
              (fwdBody par P lp_lon tanphi fac sav).2).steps = m + 1 :=
            ⟨(fwdInner par P lp_lon tanphi fac l
              (fwdBody par P lp_lon tanphi fac sav).2 (fwdBody par P lp_lon tanphi fac sav).1
              (fwdBody par P lp_lon tanphi fac sav).2).steps - 1, by omega⟩
          rw [hm'] at j3 ⊢
          simp only [Nat.add_sub_cancel] at j3 ⊢
          rw [est_succ, est_succ]
          exact j3
        · intro k hk
          rcases Nat.eq_zero_or_pos k with rfl | hpos
          · rw [est_zero, est_succ]; exact h
          · obtain ⟨j, rfl⟩ : ∃ j, k = j + 1 := ⟨k - 1, by omega⟩
            rw [est_succ, est_succ]
            exact j4 j (by
              have : (j + 1) + 1 < (fwdInner par P lp_lon tanphi fac l
                (fwdBody par P lp_lon tanphi fac sav).2 (fwdBody par P lp_lon tanphi fac sav).1
                (fwdBody par P lp_lon tanphi fac sav).2).steps + 1 := hk
              omega)

/-- What the inner loop of `fwd` returns, in terms of the entry value of `l`. -/
theorem fwdInner_spec (par : Parameters T) (P : par_lsat T) (lp_lon tanphi fac : T) :
    ∀ (l : Nat) (sav lamt lamdp : T),
      (fwdInner par P lp_lon tanphi fac l sav lamt lamdp).l ≤ l ∧
      (fwdInner par P lp_lon tanphi fac l sav lamt lamdp).steps ≤ l ∧
      (0 < l → 1 ≤ (fwdInner par P lp_lon tanphi fac l sav lamt lamdp).steps) ∧
      ((fwdInner par P lp_lon tanphi fac l sav lamt lamdp).met = true
        ↔ (fwdInner par P lp_lon tanphi fac l sav lamt lamdp).l ≠ 0) ∧
      ((fwdInner par P lp_lon tanphi fac l sav lamt lamdp).met = false →
        (fwdInner par P lp_lon tanphi fac l sav lamt lamdp).steps = l) := by
  intro l
  induction l with
  | zero => intro sav lamt lamdp; simp [fwdInner]
  | succ l ih =>
    intro sav lamt lamdp
    simp only [fwdInner]
    generalize fwdBody par P lp_lon tanphi fac sav = b
    by_cases h : |(|sav| - |b.2|)| < TOL
    · simp [h]
    · obtain ⟨h1, h2, _, h4, h5⟩ := ih b.2 b.1 b.2
      simp only [h, if_false]
      refine ⟨by omega, by omega, by intro; omega, h4, ?_⟩
      intro hm
      have := h5 hm
      omega

theorem fwdAttempt_spec (par : Parameters T) (P : par_lsat T)
    (lp_lon tanphi lampp lamt lamdp : T) :
    1 ≤ (fwdAttempt par P lp_lon tanphi lampp lamt lamdp).steps ∧
    (fwdAttempt par P lp_lon tanphi lampp lamt lamdp).steps ≤ 50 ∧
    ((fwdAttempt par P lp_lon tanphi lampp lamt lamdp).met = true
      ↔ (fwdAttempt par P lp_lon tanphi lampp lamt lamdp).l ≠ 0) ∧
    ((fwdAttempt par P lp_lon tanphi lampp lamt lamdp).met = false →
      (fwdAttempt par P lp_lon tanphi lampp lamt lamdp).steps = 50) := by
  unfold fwdAttempt
  obtain ⟨_, h2, h3, h4, h5⟩ := fwdInner_spec par P lp_lon tanphi
    (if CalcFns.cos (lp_lon + P.p22 * lampp) < 0 then lampp + CalcFns.sin lampp * HALFPI
      else lampp - CalcFns.sin lampp * HALFPI) 50 lampp lamt lamdp
  exact ⟨h3 (by norm_num), h2, h4, h5⟩

/-- The outer loop of `fwd`: the attempts it runs.  There is at least one and there are
at most `3 - nn` (one when `nn ≥ 3`); the last one gives the exit values of `l`, `lamt`,
`lamdp`; all the earlier ones left their inner loop by `break`. -/
theorem fwdOuter_spec (par : Parameters T) (P : par_lsat T) (lp_lon tanphi : T) :
    ∀ (k nn : Nat), 3 - nn ≤ k → ∀ (lampp lamt lamdp : T),
      ∃ (init : List (InnerOut T)) (last : InnerOut T),
        (fwdOuter par P lp_lon tanphi nn lampp lamt lamdp).attempts = init ++ [last] ∧
        (fwdOuter par P lp_lon tanphi nn lampp lamt lamdp).l = last.l ∧
        (fwdOuter par P lp_lon tanphi nn lampp lamt lamdp).lamt = last.lamt ∧
        (fwdOuter par P lp_lon tanphi nn lampp lamt lamdp).lamdp = last.lamdp ∧
        init.length + 1 ≤ max 1 (3 - nn) ∧
        (∀ r ∈ init, r.met = true) ∧
        (∀ r ∈ init ++ [last], 1 ≤ r.steps ∧ r.steps ≤ 50 ∧ (r.met = true ↔ r.l ≠ 0) ∧
          (r.met = false → r.steps = 50)) := by
  intro k
  induction k with
  | zero =>
    intro nn hk lampp lamt lamdp
    have hs := fwdAttempt_spec par P lp_lon tanphi lampp lamt lamdp
    rw [fwdOuter]
    refine ⟨[], fwdAttempt par P lp_lon tanphi lampp lamt lamdp, ?_⟩
    have h3 : nn + 1 ≥ 3 := by omega
    by_cases h0 : (fwdAttempt par P lp_lon tanphi lampp lamt lamdp).l = 0
    · simp [h0, hs]
      exact hs.2.2.2
    · simp [h0, h3, hs]
  | succ k ih =>
    intro nn hk lampp lamt lamdp
    have hs := fwdAttempt_spec par P lp_lon tanphi lampp lamt lamdp
    rw [fwdOuter]
    by_cases h0 : (fwdAttempt par P lp_lon tanphi lampp lamt lamdp).l = 0
    · refine ⟨[], fwdAttempt par P lp_lon tanphi lampp lamt lamdp, ?_⟩
      simp [h0, hs]
      exact hs.2.2.2
    · by_cases hb : nn + 1 ≥ 3 ∨
          ((fwdAttempt par P lp_lon tanphi lampp lamt lamdp).lamdp > P.rlm ∧
            (fwdAttempt par P lp_lon tanphi lampp lamt lamdp).lamdp < P.rlm2)
      · refine ⟨[], fwdAttempt par P lp_lon tanphi lampp lamt lamdp, ?_⟩
        simp only [h0, hb, if_true, if_false]
        simp [hs]
        exact hs.2.2.2
      · have hnn : nn + 1 < 3 := by
          by_contra hc
          exact hb (Or.inl (by omega))
        simp only [h0, hb, if_false]
        obtain ⟨init, last, e1, e2, e3, e4, e5, e6, e7⟩ := ih (nn + 1) (by omega)
          (if (fwdAttempt par P lp_lon tanphi lampp lamt lamdp).lamdp ≤ P.rlm then TWOPI_HALFPI
            else if (fwdAttempt par P lp_lon tanphi lampp lamt lamdp).lamdp ≥ P.rlm2 then HALFPI
            else lampp)
          (fwdAttempt par P lp_lon tanphi lampp lamt lamdp).lamt
          (fwdAttempt par P lp_lon tanphi lampp lamt lamdp).lamdp
        refine ⟨fwdAttempt par P lp_lon tanphi lampp lamt lamdp :: init, last, ?_, e2, e3, e4,
          ?_, ?_, ?_⟩
        · simp [e1]
        · have : max 1 (3 - (nn + 1)) = 3 - (nn + 1) := by
            apply max_eq_right; omega
          rw [this] at e5
          have : max 1 (3 - nn) = 3 - nn := by
            apply max_eq_right; omega
          rw [this]
          simp only [List.length_cons]
          omega
        · intro r hr
          rcases List.mem_cons.mp hr with rfl | hr
          · exact hs.2.2.1.mpr h0
          · exact e6 r hr
        · intro r hr
          rw [List.cons_append] at hr
          rcases List.mem_cons.mp hr with rfl | hr
          · exact hs
          · exact e7 r hr

theorem fwdLoop_spec (par : Parameters T) (P : par_lsat T) (lp_lon lp_lat : T) :
    ∃ (init : List (InnerOut T)) (last : InnerOut T),
      (fwdLoop par P lp_lon lp_lat).attempts = init ++ [last] ∧
      (fwdLoop par P lp_lon lp_lat).l = last.l ∧
      (fwdLoop par P lp_lon lp_lat).lamt = last.lamt ∧
      (fwdLoop par P lp_lon lp_lat).lamdp = last.lamdp ∧
      init.length + 1 ≤ 3 ∧
      (∀ r ∈ init, r.met = true) ∧
      (∀ r ∈ init ++ [last], 1 ≤ r.steps ∧ r.steps ≤ 50 ∧ (r.met = true ↔ r.l ≠ 0) ∧
          (r.met = false → r.steps = 50)) := by
  unfold fwdLoop
  obtain ⟨init, last, e1, e2, e3, e4, e5, e6, e7⟩ :=
    fwdOuter_spec par P lp_lon (CalcFns.tan lp_lat) 3 0 (by norm_num)
      (if lp_lat ≥ 0 then HALFPI else PI_HALFPI) 0 0
  exact ⟨init, last, e1, e2, e3, e4, by simpa using e5, e6, e7⟩

/-- C5: the outer loop of `fwd` is a total function that runs at least one and at most
three attempts; every attempt runs between 1 and 50 inner steps, so there are at most
150 inner steps in all; and an attempt whose inner loop ends without the tolerance test
holding (all its steps used) is the last attempt. -/
theorem C5_fwd_attempts_bounded (par : Parameters T) (P : par_lsat T) (lp_lon lp_lat : T) :
    1 ≤ (fwdLoop par P lp_lon (fwdClamp lp_lat)).attempts.length ∧
    (fwdLoop par P lp_lon (fwdClamp lp_lat)).attempts.length ≤ 3 ∧
    (∀ r ∈ (fwdLoop par P lp_lon (fwdClamp lp_lat)).attempts, 1 ≤ r.steps ∧ r.steps ≤ 50) ∧
    ((fwdLoop par P lp_lon (fwdClamp lp_lat)).attempts.map InnerOut.steps).sum ≤ 150 ∧
    (∀ (i : Nat) (r : InnerOut T),
      (fwdLoop par P lp_lon (fwdClamp lp_lat)).attempts[i]? = some r → r.met = false →
        r.steps = 50 ∧ i + 1 = (fwdLoop par P lp_lon (fwdClamp lp_lat)).attempts.length) := by
  obtain ⟨init, last, e1, -, -, -, e5, e6, e7⟩ := fwdLoop_spec par P lp_lon (fwdClamp lp_lat)
  rw [e1]
  have hlen : (init ++ [last]).length = init.length + 1 := by simp
  refine ⟨by rw [hlen]; omega, by rw [hlen]; exact e5, fun r hr => ⟨(e7 r hr).1, (e7 r hr).2.1⟩,
    ?_, ?_⟩
  · have h := List.sum_le_card_nsmul ((init ++ [last]).map InnerOut.steps) 50 (by
      intro x hx
      obtain ⟨r, hr, rfl⟩ := List.mem_map.mp hx
      exact (e7 r hr).2.1)
    rw [List.length_map, hlen, smul_eq_mul] at h
    omega
  · intro i r hi hm
    have hmem : r ∈ init ++ [last] := List.getElem?_mem hi
    have hlt : i < (init ++ [last]).length := by
      by_contra hc
      rw [List.getElem?_eq_none (by omega)] at hi
      exact Option.noConfusion hi
    refine ⟨?_, ?_⟩
    · exact (e7 r hmem).2.2.2 hm
    · rw [hlen] at hlt ⊢
      by_contra hne
      have hi' : i < init.length := by omega
      rw [List.getElem?_append_left hi'] at hi
      have := e6 r (List.getElem?_mem hi)
      rw [this] at hm
      exact Bool.noConfusion hm

theorem fwdClamp_eq_min_max (lp_lat : T) (hpi : 0 ≤ (CalcFns.pi : T)) :
    fwdClamp lp_lat = min (max lp_lat (-(CalcFns.pi / 2))) (CalcFns.pi / 2) := by
  unfold fwdClamp HALFPI
  have h2 : (0 : T) ≤ CalcFns.pi / 2 := by positivity
  by_cases ha : lp_lat > CalcFns.pi / 2
  · rw [if_pos ha, max_eq_left (by linarith), min_eq_right (le_of_lt ha)]
  · rw [if_neg ha]
    by_cases hb : lp_lat < -(CalcFns.pi / 2)
    · rw [if_pos hb, max_eq_right (le_of_lt hb), min_eq_left (by linarith)]
    · rw [if_neg hb, max_eq_left (not_lt.mp hb), min_eq_left (not_lt.mp ha)]

theorem fwdClamp_idem (lp_lat : T) (hpi : 0 ≤ (CalcFns.pi : T)) :
    fwdClamp (fwdClamp lp_lat) = fwdClamp lp_lat := by
  rw [fwdClamp_eq_min_max _ hpi, fwdClamp_eq_min_max _ hpi]
  have h2 : (0 : T) ≤ CalcFns.pi / 2 := by positivity
  rw [max_eq_left (le_min (le_max_right _ _) (by linarith)), min_eq_left (min_le_right _ _)]

theorem fwd_clamp (par : Parameters T) (P : par_lsat T) (lp_lon lp_lat : T)
    (hpi : 0 ≤ (CalcFns.pi : T)) :
    fwd par P lp_lon (fwdClamp lp_lat) = fwd par P lp_lon lp_lat := by
  unfold fwd
  simp only [fwdClamp_idem lp_lat hpi]

/-- C10: `fwd` uses the latitude only through its clamp to `[-π/2, π/2]`:
`fwd(lon, lat) = fwd(lon, min(max(lat, -π/2), π/2))`.  So a latitude above `π/2` gives
the result of `π/2`, one below `-π/2` the result of `-π/2`, and at `±π/2` the latitude
that `fwd` leaves in `lp_lat` is the one it was given.  (`0 ≤ π` is all that is used of
the constant.) -/
theorem C10_fwd_clamps_latitude (par : Parameters T) (P : par_lsat T) (lp_lon lp_lat : T)
    (hpi : 0 ≤ (CalcFns.pi : T)) :
    fwd par P lp_lon lp_lat
      = fwd par P lp_lon (min (max lp_lat (-(CalcFns.pi / 2))) (CalcFns.pi / 2)) ∧
    (lp_lat > CalcFns.pi / 2 → fwd par P lp_lon lp_lat = fwd par P lp_lon (CalcFns.pi / 2)) ∧
    (lp_lat < -(CalcFns.pi / 2) →
      fwd par P lp_lon lp_lat = fwd par P lp_lon (-(CalcFns.pi / 2))) ∧
    (fwd par P lp_lon (CalcFns.pi / 2)).lp_lat = CalcFns.pi / 2 ∧
    (fwd par P lp_lon (-(CalcFns.pi / 2))).lp_lat = -(CalcFns.pi / 2) := by
  have h2 : (0 : T) ≤ CalcFns.pi / 2 := by positivity
  have e := fwdClamp_eq_min_max lp_lat hpi
  have hlat : ∀ x : T, (fwd par P lp_lon x).lp_lat = fwdClamp x := by
    intro x
    simp only [fwd]
    split_ifs <;> rfl
  refine ⟨?_, ?_, ?_, ?_, ?_⟩
  · rw [← e, fwd_clamp par P lp_lon lp_lat hpi]
  · intro h
    rw [← fwd_clamp par P lp_lon lp_lat hpi, e, max_eq_left (by linarith),
      min_eq_right (le_of_lt h)]
  · intro h
    rw [← fwd_clamp par P lp_lon lp_lat hpi, e, max_eq_right (le_of_lt h),
      min_eq_left (by linarith)]
  · rw [hlat, fwdClamp_eq_min_max _ hpi, max_eq_left (by linarith), min_eq_left (le_refl _)]
  · rw [hlat, fwdClamp_eq_min_max _ hpi, max_eq_left (le_refl _), min_eq_left (by linarith)]

/-- C10, at longitude 0 and latitude 2 (above `π/2`) over the reals. -/
theorem C10_fwd_clamps_latitude_witness :
    (0 : ℝ) ≤ CalcFns.pi ∧
    (fwd (⟨0, 0, 1, 1⟩ : Parameters ℝ) ⟨0, 0, 0, 0, 0, 0, 0, 0, 0, 0, 0, 0, 0, 0, 0⟩ 0 2
      = fwd (⟨0, 0, 1, 1⟩ : Parameters ℝ) ⟨0, 0, 0, 0, 0, 0, 0, 0, 0, 0, 0, 0, 0, 0, 0⟩ 0 (min (max 2 (-(CalcFns.pi / 2))) (CalcFns.pi / 2)) ∧
    ((2 : ℝ) > CalcFns.pi / 2 → fwd (⟨0, 0, 1, 1⟩ : Parameters ℝ) ⟨0, 0, 0, 0, 0, 0, 0, 0, 0, 0, 0, 0, 0, 0, 0⟩ 0 2 = fwd (⟨0, 0, 1, 1⟩ : Parameters ℝ) ⟨0, 0, 0, 0, 0, 0, 0, 0, 0, 0, 0, 0, 0, 0, 0⟩ 0 (CalcFns.pi / 2)) ∧
    ((2 : ℝ) < -(CalcFns.pi / 2) → fwd (⟨0, 0, 1, 1⟩ : Parameters ℝ) ⟨0, 0, 0, 0, 0, 0, 0, 0, 0, 0, 0, 0, 0, 0, 0⟩ 0 2 = fwd (⟨0, 0, 1, 1⟩ : Parameters ℝ) ⟨0, 0, 0, 0, 0, 0, 0, 0, 0, 0, 0, 0, 0, 0, 0⟩ 0 (-(CalcFns.pi / 2))) ∧
    (fwd (⟨0, 0, 1, 1⟩ : Parameters ℝ) ⟨0, 0, 0, 0, 0, 0, 0, 0, 0, 0, 0, 0, 0, 0, 0⟩ 0 (CalcFns.pi / 2)).lp_lat = CalcFns.pi / 2 ∧
    (fwd (⟨0, 0, 1, 1⟩ : Parameters ℝ) ⟨0, 0, 0, 0, 0, 0, 0, 0, 0, 0, 0, 0, 0, 0, 0⟩ 0 (-(CalcFns.pi / 2))).lp_lat = -(CalcFns.pi / 2)) :=
  ⟨Real.pi_pos.le, C10_fwd_clamps_latitude _ _ 0 2 Real.pi_pos.le⟩

/-- The body of the inner loop of `fwd`, written out: the new `lamt` is the nudged angle,
and the divisor of `xlam` is the cosine of the angle before the nudge. -/
theorem fwdBody_eq (par : Parameters T) (P : par_lsat T) (lp_lon tanphi fac sav : T) :
    fwdBody par P lp_lon tanphi fac sav
      = ((if |CalcFns.cos (lp_lon + P.p22 * sav)| < TOL then lp_lon + P.p22 * sav - TOL
          else lp_lon + P.p22 * sav),
        CalcFns.atan ((par.one_es * tanphi * P.sa
            + CalcFns.sin (if |CalcFns.cos (lp_lon + P.p22 * sav)| < TOL
                then lp_lon + P.p22 * sav - TOL else lp_lon + P.p22 * sav) * P.ca)
          / CalcFns.cos (lp_lon + P.p22 * sav)) + fac) := by
  rfl

/-- C3 (amended): whenever an attempt of the forward transform uses all 50 steps of its
inner loop without the tolerance test holding, `fwd` sets both `xy_x` and `xy_y` to the
sentinel `HUGE_VAL`. -/
theorem C3_fwd_exhausted_sentinel (par : Parameters T) (P : par_lsat T) (lp_lon lp_lat : T)
    (h : ∃ r ∈ (fwdLoop par P lp_lon (fwdClamp lp_lat)).attempts,
      r.steps = 50 ∧ r.met = false) :
    (fwd par P lp_lon lp_lat).xy_x = Coord.HUGE_VAL ∧
    (fwd par P lp_lon lp_lat).xy_y = Coord.HUGE_VAL := by
  obtain ⟨init, last, e1, e2, -, -, -, e6, e7⟩ := fwdLoop_spec par P lp_lon (fwdClamp lp_lat)
  obtain ⟨r, hr, -, hm⟩ := h
  rw [e1] at hr
  have hlast : last.met = false := by
    rcases List.mem_append.mp hr with hi | hl
    · rw [e6 r hi] at hm
      exact Bool.noConfusion hm
    · rw [List.mem_singleton] at hl
      rw [← hl]
      exact hm
  have hl0 : (fwdLoop par P lp_lon (fwdClamp lp_lat)).l = 0 := by
    rw [e2]
    by_contra hne
    have := (e7 last (by simp)).2.2.1.mpr hne
    rw [this] at hlast
    exact Bool.noConfusion hlast
  simp [fwd, hl0]

/-- C14: the forward transform returns the sentinel in both `xy_x` and `xy_y` if and only
if the inner loop of the last attempt it ran used all 50 steps without the tolerance test
holding.  When that inner loop met the tolerance, `fwd` returns the closed forms `fwdX`,
`fwdY` at the last `lamt`, `lamdp`, whatever the position of `lamdp` relative to `rlm`
and `rlm2`.  One of the two cases always holds. -/
theorem C14_fwd_sentinel_iff (par : Parameters T) (P : par_lsat T) (lp_lon lp_lat : T) :
    ∃ last : InnerOut T,
      (fwdLoop par P lp_lon (fwdClamp lp_lat)).attempts.getLast? = some last ∧
      (((fwd par P lp_lon lp_lat).xy_x = Coord.HUGE_VAL ∧
          (fwd par P lp_lon lp_lat).xy_y = Coord.HUGE_VAL)
        ↔ (last.steps = 50 ∧ last.met = false)) ∧
      (last.met = true →
        (fwd par P lp_lon lp_lat).xy_x
          = Coord.val (fwdX par P (fwdClamp lp_lat) last.lamt last.lamdp) ∧
        (fwd par P lp_lon lp_lat).xy_y
          = Coord.val (fwdY par P (fwdClamp lp_lat) last.lamt last.lamdp)) ∧
      (last.met = true ∨ (last.steps = 50 ∧ last.met = false)) := by
  obtain ⟨init, last, e1, e2, e3, e4, -, -, e7⟩ := fwdLoop_spec par P lp_lon (fwdClamp lp_lat)
  obtain ⟨-, -, hm, hs⟩ := e7 last (by simp)
  refine ⟨last, by rw [e1]; simp, ?_, ?_, ?_⟩
  · by_cases hl : (fwdLoop par P lp_lon (fwdClamp lp_lat)).l = 0
    · have hmf : last.met = false := by
        cases hmet : last.met with
        | false => rfl
        | true => exact absurd (e2 ▸ hl) (hm.mp hmet)
      simp only [fwd, hl, ne_eq, not_true_eq_false, if_false, true_and, hmf, hs hmf, and_self]
    · have hmt : last.met = true := hm.mpr (e2 ▸ hl)
      simp only [fwd, hl, ne_eq, not_false_eq_true, if_true, hmt]
      simp
  · intro hmt
    have hl : (fwdLoop par P lp_lon (fwdClamp lp_lat)).l ≠ 0 := by
      rw [e2]; exact hm.mp hmt
    simp only [fwd, hl, ne_eq, not_false_eq_true, if_true, e3, e4, and_self]
  · cases hmet : last.met with
    | false => exact Or.inr ⟨hs hmet, rfl⟩
    | true => exact Or.inl rfl

end Forward

section Inverse

variable {T : Type} [LinearOrderedField T] [CalcFns T]

/-- The loop of `inv` entered with `nn + 1`: it runs the body `n` times for some
`1 ≤ n ≤ nn + 1`, where `n` is the first step that meets the tolerance, or `nn + 1`. -/
theorem invLoop_spec (P : par_lsat T) (xy_x xy_y : T) :
    ∀ (nn : Nat) (lamdp : T),
      ∃ n, 1 ≤ n ∧ n ≤ nn + 1 ∧
        (∀ k, 1 ≤ k → k < n →
          ¬ |(fun l => (invBody P xy_x xy_y l).1)^[k] lamdp
              - (fun l => (invBody P xy_x xy_y l).1)^[k - 1] lamdp| < TOL) ∧
        (|(fun l => (invBody P xy_x xy_y l).1)^[n] lamdp
              - (fun l => (invBody P xy_x xy_y l).1)^[n - 1] lamdp| < TOL ∨ n = nn + 1) ∧
        invLoop P xy_x xy_y (nn + 1) lamdp
          = invBody P xy_x xy_y ((fun l => (invBody P xy_x xy_y l).1)^[n - 1] lamdp) := by
  intro nn
  induction nn with
  | zero =>
    intro lamdp
    refine ⟨1, le_refl 1, le_refl 1, fun k h1 h2 => absurd h1 (by omega), Or.inr rfl, ?_⟩
    simp [invLoop]
  | succ m ih =>
    intro lamdp
    by_cases hc : |(invBody P xy_x xy_y lamdp).1 - lamdp| ≥ TOL
    · obtain ⟨n, h1, h2, h3, h4, h5⟩ := ih (invBody P xy_x xy_y lamdp).1
      refine ⟨n + 1, by omega, by omega, ?_, ?_, ?_⟩
      · intro k hk1 hk2
        obtain ⟨j, rfl⟩ : ∃ j, k = j + 1 := ⟨k - 1, by omega⟩
        rcases Nat.eq_zero_or_pos j with rfl | hj
        · simpa using not_lt.mpr hc
        · have := h3 j hj (by omega)
          obtain ⟨i, rfl⟩ : ∃ i, j = i + 1 := ⟨j - 1, by omega⟩
          simpa [Function.iterate_succ_apply] using this
      · obtain ⟨j, rfl⟩ : ∃ j, n = j + 1 := ⟨n - 1, by omega⟩
        rcases h4 with h4 | h4
        · left
          simpa [Function.iterate_succ_apply] using h4
        · right
          omega
      · obtain ⟨j, rfl⟩ : ∃ j, n = j + 1 := ⟨n - 1, by omega⟩
        rw [invLoop]
        simp only [hc, true_and, ne_eq, Nat.succ_ne_zero, not_false_eq_true, if_true]
        rw [h5]
        simp [Function.iterate_succ_apply]
    · refine ⟨1, le_refl 1, by omega, fun k h1 h2 => absurd h1 (by omega), Or.inl ?_, ?_⟩
      · simpa using not_le.mp hc
      · rw [invLoop]
        simp [hc]

/-- C6: `inv` starts from the estimate `x / b` and runs its loop body `n` times with
`1 ≤ n ≤ 50`: no step before the `n`-th brings the estimate within `1e-7` of the previous
one, and the `n`-th does or is the 50th.  In both cases the result is the pair
`(lp_lon, lp_lat)` that the closing formulas give for the last estimate. -/
theorem C6_inv_iteration (par : Parameters T) (P : par_lsat T) (xy_x xy_y : T) :
    invEst P xy_x xy_y 0 = xy_x / P.b ∧
    ∃ n, 1 ≤ n ∧ n ≤ 50 ∧
      (∀ k, 1 ≤ k → k < n → ¬ |invEst P xy_x xy_y k - invEst P xy_x xy_y (k - 1)| < TOL) ∧
      (|invEst P xy_x xy_y n - invEst P xy_x xy_y (n - 1)| < TOL ∨ n = 50) ∧
      inv par P xy_x xy_y
        = invTail par P xy_y (invEst P xy_x xy_y n)
            (invBody P xy_x xy_y (invEst P xy_x xy_y (n - 1))).2 := by
  refine ⟨rfl, ?_⟩
  obtain ⟨n, h1, h2, h3, h4, h5⟩ := invLoop_spec P xy_x xy_y 49 (xy_x / P.b)
  refine ⟨n, h1, h2, h3, h4, ?_⟩
  obtain ⟨j, rfl⟩ : ∃ j, n = j + 1 := ⟨n - 1, by omega⟩
  unfold inv
  simp only [h5, invEst]
  simp [Function.iterate_succ_apply']

/-- The closing lines of `inv` in terms of the nudged estimate and the corrected `lamt`. -/
theorem invTail_eq (par : Parameters T) (P : par_lsat T) (xy_y lamdp s : T) :
    invTail par P xy_y lamdp s
      = (invLamt par P xy_y lamdp s - P.p22 * invNudge lamdp,
          if |P.sa| < TOL then
            CalcFns.aasin (invSpp P xy_y lamdp s
              / CalcFns.sqrt (par.one_es * par.one_es
                  + par.es * (invSpp P xy_y lamdp s * invSpp P xy_y lamdp s)))
          else
            CalcFns.atan ((CalcFns.tan (invNudge lamdp)
                * CalcFns.cos (invLamt par P xy_y lamdp s)
              - P.ca * CalcFns.sin (invLamt par P xy_y lamdp s)) / (par.one_es * P.sa))) := by
  rfl

end Inverse

section RealExamples

open Real

theorem real_sin (x : ℝ) : CalcFns.sin x = Real.sin x := rfl

theorem real_cos (x : ℝ) : CalcFns.cos x = Real.cos x := rfl

theorem real_tan (x : ℝ) : CalcFns.tan x = Real.tan x := rfl

theorem real_atan (x : ℝ) : CalcFns.atan x = Real.arctan x := rfl

theorem real_sqrt (x : ℝ) : CalcFns.sqrt x = Real.sqrt x := rfl

theorem real_pi : (CalcFns.pi : ℝ) = Real.pi := rfl

theorem real_TOL_pos : (0 : ℝ) < TOL := by unfold TOL; norm_num

theorem real_TOL_lt : (TOL : ℝ) < 1 / 4 := by unfold TOL; norm_num

theorem arctan_sqrt_three_eq : Real.arctan (Real.sqrt 3) = π / 3 := by
  apply Real.arctan_eq_of_tan_eq Real.tan_pi_div_three
  constructor <;> linarith [Real.pi_pos]

theorem sqrt_three_bounds : (1 : ℝ) < Real.sqrt 3 ∧ Real.sqrt 3 < 2 := by
  constructor
  · rw [show (1 : ℝ) = Real.sqrt 1 by simp]
    exact Real.sqrt_lt_sqrt (by norm_num) (by norm_num)
  · rw [show (2 : ℝ) = Real.sqrt 4 by
      rw [show (4 : ℝ) = 2 ^ 2 by norm_num, Real.sqrt_sq (by norm_num)]]
    exact Real.sqrt_lt_sqrt (by norm_num) (by norm_num)

/-- The inner-loop body on `cycleBundle` at `lon = 5π/6`, `tanphi = 1`, `fac = 0`:
from `π/2` and from `π/3` the new estimate is `π/4`, from `π/4` it is `π/3`. -/
theorem cycle_body :
    (fwdBody (unitSphere : Parameters ℝ) cycleBundle (5 * π / 6) 1 0 (π / 2)).2 = π / 4 ∧
    (fwdBody (unitSphere : Parameters ℝ) cycleBundle (5 * π / 6) 1 0 (π / 4)).2 = π / 3 ∧
    (fwdBody (unitSphere : Parameters ℝ) cycleBundle (5 * π / 6) 1 0 (π / 3)).2 = π / 4 := by
  have hs := sqrt_three_bounds
  have hne : Real.sqrt 3 ≠ 0 := by linarith [hs.1]
  have a1 : 5 * π / 6 + -2 * (π / 2) = -(π / 6) := by ring
  have a2 : 5 * π / 6 + -2 * (π / 4) = π / 3 := by ring
  have a3 : 5 * π / 6 + -2 * (π / 3) = π / 6 := by ring
  refine ⟨?_, ?_, ?_⟩
  · simp only [fwdBody, unitSphere, cycleBundle, real_cos, real_sin, real_atan, real_sqrt, a1,
      Real.cos_neg, Real.cos_pi_div_six]
    rw [show (1 : ℝ) * 1 * (Real.sqrt 3 / 2) = Real.sqrt 3 / 2 by ring, mul_zero, add_zero,
      show (Real.sqrt 3 / 2 + 0) / (Real.sqrt 3 / 2) = 1 by field_simp, Real.arctan_one]
  · simp only [fwdBody, unitSphere, cycleBundle, real_cos, real_sin, real_atan, real_sqrt, a2,
      Real.cos_pi_div_three]
    rw [show ((1 : ℝ) * 1 * (Real.sqrt 3 / 2) + Real.sin
        (if |(1 : ℝ) / 2| < TOL then π / 3 - TOL else π / 3) * 0) / (1 / 2) = Real.sqrt 3 by
      field_simp, arctan_sqrt_three_eq, add_zero]
  · simp only [fwdBody, unitSphere, cycleBundle, real_cos, real_sin, real_atan, real_sqrt, a3,
      Real.cos_pi_div_six]
    rw [show (1 : ℝ) * 1 * (Real.sqrt 3 / 2) = Real.sqrt 3 / 2 by ring, mul_zero, add_zero,
      show (Real.sqrt 3 / 2 + 0) / (Real.sqrt 3 / 2) = 1 by field_simp, Real.arctan_one]

theorem cycle_tests :
    ¬ |(|π / 2| - |π / 4|)| < (TOL : ℝ) ∧ ¬ |(|π / 4| - |π / 3|)| < (TOL : ℝ) ∧
    ¬ |(|π / 3| - |π / 4|)| < (TOL : ℝ) := by
  have hp := Real.pi_gt_three
  have ht := real_TOL_lt
  have p2 : |π / 2| = π / 2 := abs_of_pos (by positivity)
  have p3 : |π / 3| = π / 3 := abs_of_pos (by positivity)
  have p4 : |π / 4| = π / 4 := abs_of_pos (by positivity)
  rw [p2, p3, p4]
  refine ⟨?_, ?_, ?_⟩
  · rw [abs_of_pos (by linarith)]; linarith
  · rw [abs_of_neg (by linarith)]; linarith
  · rw [abs_of_pos (by linarith)]; linarith

/-- On `cycleBundle` the inner loop entered at `π/4` or at `π/3` never meets the
tolerance: it uses all the `l` steps it is given. -/
theorem cycle_inner : ∀ (l : Nat) (lamt lamdp : ℝ),
    ((fwdInner (unitSphere : Parameters ℝ) cycleBundle (5 * π / 6) 1 0 l (π / 4) lamt lamdp).met
        = false ∧
      (fwdInner (unitSphere : Parameters ℝ) cycleBundle (5 * π / 6) 1 0 l (π / 4) lamt lamdp).steps
        = l) ∧
    ((fwdInner (unitSphere : Parameters ℝ) cycleBundle (5 * π / 6) 1 0 l (π / 3) lamt lamdp).met
        = false ∧
      (fwdInner (unitSphere : Parameters ℝ) cycleBundle (5 * π / 6) 1 0 l (π / 3) lamt lamdp).steps
        = l) := by
  intro l
  induction l with
  | zero => intro lamt lamdp; simp [fwdInner]
  | succ l ih =>
    intro lamt lamdp
    rw [fwdInner_succ, fwdInner_succ]
    rw [cycle_body.2.1, cycle_body.2.2, if_neg cycle_tests.2.1, if_neg cycle_tests.2.2]
    obtain ⟨-, i2⟩ := ih (fwdBody (unitSphere : Parameters ℝ) cycleBundle (5 * π / 6) 1 0
      (π / 4)).1 (π / 3)
    obtain ⟨i1, -⟩ := ih (fwdBody (unitSphere : Parameters ℝ) cycleBundle (5 * π / 6) 1 0
      (π / 3)).1 (π / 4)
    exact ⟨⟨i2.1, by rw [i2.2]⟩, ⟨i1.1, by rw [i1.2]⟩⟩

/-- The first attempt of `fwd` on `cycleBundle` at `(5π/6, π/4)` uses all 50 inner steps
and never meets the tolerance. -/
theorem cycle_attempt :
    (fwdAttempt (unitSphere : Parameters ℝ) cycleBundle (5 * π / 6) 1 (π / 2) 0 0).met = false ∧
    (fwdAttempt (unitSphere : Parameters ℝ) cycleBundle (5 * π / 6) 1 (π / 2) 0 0).steps = 50 := by
  have hs := sqrt_three_bounds
  have a1 : 5 * π / 6 + -2 * (π / 2) = -(π / 6) := by ring
  have hfac : (if CalcFns.cos (5 * π / 6 + (cycleBundle : par_lsat ℝ).p22 * (π / 2)) < 0
      then π / 2 + CalcFns.sin (π / 2) * HALFPI
      else π / 2 - CalcFns.sin (π / 2) * HALFPI) = (0 : ℝ) := by
    have hc : ¬ Real.cos (-(π / 6)) < 0 := by
      rw [Real.cos_neg, Real.cos_pi_div_six]
      exact not_lt.mpr (by positivity)
    simp only [cycleBundle, real_cos, real_sin, a1, if_neg hc, Real.sin_pi_div_two, HALFPI,
      real_pi]
    ring
  unfold fwdAttempt
  simp only [hfac]
  rw [show (50 : Nat) = 49 + 1 from rfl, fwdInner_succ]
  rw [cycle_body.1, if_neg cycle_tests.1]
  obtain ⟨⟨i1, i2⟩, -⟩ := cycle_inner 49 (fwdBody (unitSphere : Parameters ℝ) cycleBundle
    (5 * π / 6) 1 0 (π / 2)).1 (π / 4)
  exact ⟨i1, by rw [i2]⟩

theorem real_fwdClamp_of_mem (x : ℝ) (h1 : -(π / 2) ≤ x) (h2 : x ≤ π / 2) : fwdClamp x = x := by
  unfold fwdClamp HALFPI
  rw [real_pi, if_neg (not_lt.mpr h2), if_neg (not_lt.mpr h1)]

/-- C3 (amended), at `lon = 5π/6`, `lat = π/4` on `cycleBundle`: the first attempt of the
forward transform uses its 50 inner steps without meeting the tolerance, and both
outputs are the sentinel. -/
theorem C3_fwd_exhausted_sentinel_witness :
    (∃ r ∈ (fwdLoop (unitSphere : Parameters ℝ) cycleBundle (5 * π / 6)
        (fwdClamp (π / 4))).attempts, r.steps = 50 ∧ r.met = false) ∧
    (fwd (unitSphere : Parameters ℝ) cycleBundle (5 * π / 6) (π / 4)).xy_x = Coord.HUGE_VAL ∧
    (fwd (unitSphere : Parameters ℝ) cycleBundle (5 * π / 6) (π / 4)).xy_y = Coord.HUGE_VAL := by
  have hex : ∃ r ∈ (fwdLoop (unitSphere : Parameters ℝ) cycleBundle (5 * π / 6)
      (fwdClamp (π / 4))).attempts, r.steps = 50 ∧ r.met = false := by
    have hp := Real.pi_pos
    rw [real_fwdClamp_of_mem (π / 4) (by linarith) (by linarith)]
    have hl0 : (fwdAttempt (unitSphere : Parameters ℝ) cycleBundle (5 * π / 6) 1 (π / 2) 0 0).l
        = 0 := by
      by_contra hne
      have := (fwdAttempt_spec (unitSphere : Parameters ℝ) cycleBundle (5 * π / 6) 1 (π / 2) 0
        0).2.2.1.mpr hne
      rw [cycle_attempt.1] at this
      exact Bool.noConfusion this
    refine ⟨fwdAttempt (unitSphere : Parameters ℝ) cycleBundle (5 * π / 6) 1 (π / 2) 0 0, ?_,
      cycle_attempt.2, cycle_attempt.1⟩
    unfold fwdLoop
    rw [if_pos (by positivity : π / 4 ≥ 0), real_tan, Real.tan_pi_div_four, fwdOuter]
    simp only [HALFPI, real_pi, hl0, if_true, List.mem_singleton]
  exact ⟨hex, C3_fwd_exhausted_sentinel _ _ _ _ hex⟩

/-- On `thirdBundle` at `lon = 0`, `tanphi = 0` the ratio `xlam` is 0, so the body of
the inner loop always gives `lamdp = fac`. -/
theorem third_body (fac sav : ℝ) :
    (fwdBody (unitSphere : Parameters ℝ) thirdBundle 0 0 fac sav).2 = fac := by
  simp [fwdBody, unitSphere, thirdBundle, real_atan]

/-- So the inner loop, entered away from `fac`, leaves at its second step with
`lamdp = fac`. -/
theorem third_inner (fac sav lamt lamdp : ℝ) (h : ¬ |(|sav| - |fac|)| < (TOL : ℝ)) :
    (fwdInner (unitSphere : Parameters ℝ) thirdBundle 0 0 fac 50 sav lamt lamdp).l = 49 ∧
    (fwdInner (unitSphere : Parameters ℝ) thirdBundle 0 0 fac 50 sav lamt lamdp).lamdp = fac ∧
    (fwdInner (unitSphere : Parameters ℝ) thirdBundle 0 0 fac 50 sav lamt lamdp).met = true ∧
    (fwdInner (unitSphere : Parameters ℝ) thirdBundle 0 0 fac 50 sav lamt lamdp).steps = 2 := by
  have h0 : |(|fac| - |fac|)| < (TOL : ℝ) := by
    rw [sub_self, abs_zero]
    exact real_TOL_pos
  rw [show (50 : Nat) = 48 + 1 + 1 from rfl, fwdInner_succ, third_body, if_neg h,
    fwdInner_succ, third_body, if_pos h0]
  exact ⟨rfl, rfl, rfl, rfl⟩

/-- An attempt on `thirdBundle` from `lampp = π/2`: `cl = cos(π/6) ≥ 0`, `fac = 0`. -/
theorem third_attempt_half (lamt lamdp : ℝ) :
    (fwdAttempt (unitSphere : Parameters ℝ) thirdBundle 0 0 HALFPI lamt lamdp).l = 49 ∧
    (fwdAttempt (unitSphere : Parameters ℝ) thirdBundle 0 0 HALFPI lamt lamdp).lamdp = 0 := by
  have hp := Real.pi_gt_three
  have ht := real_TOL_lt
  have a1 : (0 : ℝ) + 1 / 3 * (π / 2) = π / 6 := by ring
  have hc : ¬ Real.cos (π / 6) < 0 := by
    rw [Real.cos_pi_div_six]
    exact not_lt.mpr (by positivity)
  have hfac : (if CalcFns.cos (0 + (thirdBundle : par_lsat ℝ).p22 * HALFPI) < 0
      then HALFPI + CalcFns.sin HALFPI * HALFPI
      else HALFPI - CalcFns.sin HALFPI * HALFPI) = (0 : ℝ) := by
    simp only [thirdBundle, real_cos, real_sin, HALFPI, real_pi, a1, if_neg hc,
      Real.sin_pi_div_two]
    ring
  have htest : ¬ |(|(HALFPI : ℝ)| - |(0 : ℝ)|)| < (TOL : ℝ) := by
    simp only [HALFPI, real_pi, abs_zero, sub_zero, abs_abs]
    rw [abs_of_pos (by positivity)]
    linarith
  unfold fwdAttempt
  simp only [hfac]
  obtain ⟨h1, h2, -, -⟩ := third_inner 0 HALFPI lamt lamdp htest
  exact ⟨h1, h2⟩

/-- An attempt on `thirdBundle` from `lampp = 2π + π/2`: `cl = cos(5π/6) < 0`,
`fac = 3π`. -/
theorem third_attempt_twohalf (lamt lamdp : ℝ) :
    (fwdAttempt (unitSphere : Parameters ℝ) thirdBundle 0 0 TWOPI_HALFPI lamt lamdp).l = 49 ∧
    (fwdAttempt (unitSphere : Parameters ℝ) thirdBundle 0 0 TWOPI_HALFPI lamt lamdp).lamdp
      = 3 * π := by
  have hp := Real.pi_gt_three
  have ht := real_TOL_lt
  have a1 : (0 : ℝ) + 1 / 3 * (2 * π + π / 2) = 5 * π / 6 := by ring
  have a2 : 2 * π + π / 2 = π / 2 + 2 * π := by ring
  have hc : Real.cos (5 * π / 6) < 0 :=
    Real.cos_neg_of_pi_div_two_lt_of_lt (by linarith) (by linarith)
  have hfac : (if CalcFns.cos (0 + (thirdBundle : par_lsat ℝ).p22 * TWOPI_HALFPI) < 0
      then TWOPI_HALFPI + CalcFns.sin TWOPI_HALFPI * HALFPI
      else TWOPI_HALFPI - CalcFns.sin TWOPI_HALFPI * HALFPI) = 3 * π := by
    simp only [thirdBundle, real_cos, real_sin, HALFPI, TWOPI_HALFPI, real_pi, a1, if_pos hc]
    rw [a2, Real.sin_add_two_pi, Real.sin_pi_div_two]
    ring
  have htest : ¬ |(|(TWOPI_HALFPI : ℝ)| - |3 * π|)| < (TOL : ℝ) := by
    simp only [TWOPI_HALFPI, real_pi]
    rw [abs_of_pos (by positivity : (0 : ℝ) < 2 * π + π / 2),
      abs_of_pos (by positivity : (0 : ℝ) < 3 * π), abs_of_neg (by linarith)]
    linarith
  unfold fwdAttempt
  simp only [hfac]
  obtain ⟨h1, h2, -, -⟩ := third_inner (3 * π) TWOPI_HALFPI lamt lamdp htest
  exact ⟨h1, h2⟩

theorem third_bounds :
    (0 : ℝ) < (thirdBundle : par_lsat ℝ).rlm ∧ (thirdBundle : par_lsat ℝ).rlm < 3 * π ∧
    (thirdBundle : par_lsat ℝ).rlm2 < 3 * π := by
  have hp := Real.pi_gt_three
  simp only [thirdBundle, ONEPI, TWOPI, real_pi]
  refine ⟨by positivity, ?_, ?_⟩
  · nlinarith
  · nlinarith

/-- The third pass of the outer loop on `thirdBundle`: entered with `nn = 2` and
`lampp = π/2`, it leaves with `l = 49` and `lamdp = 0` after one attempt. -/
theorem third_outer_two (lamt lamdp : ℝ) :
    (fwdOuter (unitSphere : Parameters ℝ) thirdBundle 0 0 2 HALFPI lamt lamdp).l = 49 ∧
    (fwdOuter (unitSphere : Parameters ℝ) thirdBundle 0 0 2 HALFPI lamt lamdp).lamdp = 0 ∧
    (fwdOuter (unitSphere : Parameters ℝ) thirdBundle 0 0 2 HALFPI lamt lamdp).attempts.length
      = 1 := by
  obtain ⟨h1, h2⟩ := third_attempt_half lamt lamdp
  rw [fwdOuter]
  simp only [h1, h2]
  simp

/-- The second pass: entered with `nn = 1` and `lampp = 2π + π/2`, its attempt ends at
`lamdp = 3π ≥ rlm2`, and the third pass follows. -/
theorem third_outer_one (lamt lamdp : ℝ) :
    (fwdOuter (unitSphere : Parameters ℝ) thirdBundle 0 0 1 TWOPI_HALFPI lamt lamdp).l = 49 ∧
    (fwdOuter (unitSphere : Parameters ℝ) thirdBundle 0 0 1 TWOPI_HALFPI lamt lamdp).lamdp
      = 0 ∧
    (fwdOuter (unitSphere : Parameters ℝ) thirdBundle 0 0 1 TWOPI_HALFPI lamt
      lamdp).attempts.length = 2 := by
  obtain ⟨h1, h2⟩ := third_attempt_twohalf lamt lamdp
  obtain ⟨b1, b2, b3⟩ := third_bounds
  have c1 : ¬ (1 + 1 ≥ 3 ∨ (3 * π > (thirdBundle : par_lsat ℝ).rlm ∧
      3 * π < (thirdBundle : par_lsat ℝ).rlm2)) := by
    rintro (h | ⟨-, h⟩)
    · omega
    · linarith
  have c2 : ¬ 3 * π ≤ (thirdBundle : par_lsat ℝ).rlm := not_le.mpr b2
  have c3 : 3 * π ≥ (thirdBundle : par_lsat ℝ).rlm2 := le_of_lt b3
  rw [fwdOuter]
  simp only [h1, h2, c1, c2, c3, if_true, if_false]
  obtain ⟨e1, e2, e3⟩ := third_outer_two
    (fwdAttempt (unitSphere : Parameters ℝ) thirdBundle 0 0 TWOPI_HALFPI lamt lamdp).lamt (3 * π)
  simp only [show (49 : Nat) = 0 ↔ False by decide, if_false, List.length_cons]
  exact ⟨e1, e2, by rw [e3]⟩

/-- The first pass: entered with `nn = 0` and `lampp = π/2`, its attempt ends at
`lamdp = 0 ≤ rlm`, and the second pass follows. -/
theorem third_outer_zero (lamt lamdp : ℝ) :
    (fwdOuter (unitSphere : Parameters ℝ) thirdBundle 0 0 0 HALFPI lamt lamdp).l = 49 ∧
    (fwdOuter (unitSphere : Parameters ℝ) thirdBundle 0 0 0 HALFPI lamt lamdp).lamdp = 0 ∧
    (fwdOuter (unitSphere : Parameters ℝ) thirdBundle 0 0 0 HALFPI lamt lamdp).attempts.length
      = 3 := by
  obtain ⟨h1, h2⟩ := third_attempt_half lamt lamdp
  obtain ⟨b1, b2, b3⟩ := third_bounds
  have c1 : ¬ (0 + 1 ≥ 3 ∨ ((0 : ℝ) > (thirdBundle : par_lsat ℝ).rlm ∧
      (0 : ℝ) < (thirdBundle : par_lsat ℝ).rlm2)) := by
    rintro (h | ⟨h, -⟩)
    · omega
    · linarith
  have c2 : (0 : ℝ) ≤ (thirdBundle : par_lsat ℝ).rlm := le_of_lt b1
  rw [fwdOuter]
  simp only [h1, h2, c1, c2, if_true, if_false]
  obtain ⟨e1, e2, e3⟩ := third_outer_one
    (fwdAttempt (unitSphere : Parameters ℝ) thirdBundle 0 0 HALFPI lamt lamdp).lamt 0
  simp only [show (49 : Nat) = 0 ↔ False by decide, if_false, List.length_cons]
  exact ⟨e1, e2, by rw [e3]⟩

/-- C3, refuted as stated: on `thirdBundle` at `lon = 0`, `lat = 0` the forward transform
runs three attempts, each of which meets the tolerance at its second inner step; after
the third the estimate is `lamdp = 0`, which is not strictly between `rlm` and `rlm2`;
and neither output is the sentinel.

The run: `tanphi = 0` and `ca = 0` make `xlam = 0`, so `lamdp = fac` at every step.
Attempt 1: `lampp = π/2`, `cl = cos(π/6) ≥ 0`, `fac = 0`, `lamdp = 0 ≤ rlm`, so
`lampp = 2π + π/2`.  Attempt 2: `cl = cos(5π/6) < 0`, `fac = 3π`, `lamdp = 3π ≥ rlm2`, so
`lampp = π/2`.  Attempt 3: as attempt 1, `lamdp = 0`, and `++nn >= 3` ends the loop with
`l = 49`.  The divisors `c` on the way are `cos(π/6)`, `cos 0`, `cos(5π/6)`, `cos π`. -/
theorem C3_counterexample :
    (fwdLoop (unitSphere : Parameters ℝ) thirdBundle 0 (fwdClamp 0)).attempts.length = 3 ∧
    (fwdLoop (unitSphere : Parameters ℝ) thirdBundle 0 (fwdClamp 0)).lamdp = 0 ∧
    ¬ ((thirdBundle : par_lsat ℝ).rlm
          < (fwdLoop (unitSphere : Parameters ℝ) thirdBundle 0 (fwdClamp 0)).lamdp ∧
        (fwdLoop (unitSphere : Parameters ℝ) thirdBundle 0 (fwdClamp 0)).lamdp
          < (thirdBundle : par_lsat ℝ).rlm2) ∧
    (fwd (unitSphere : Parameters ℝ) thirdBundle 0 0).xy_x ≠ Coord.HUGE_VAL ∧
    (fwd (unitSphere : Parameters ℝ) thirdBundle 0 0).xy_y ≠ Coord.HUGE_VAL := by
  have hp := Real.pi_pos
  have hclamp : fwdClamp (0 : ℝ) = 0 := real_fwdClamp_of_mem 0 (by linarith) (by linarith)
  have hloop : fwdLoop (unitSphere : Parameters ℝ) thirdBundle 0 0
      = fwdOuter (unitSphere : Parameters ℝ) thirdBundle 0 0 0 HALFPI 0 0 := by
    unfold fwdLoop
    rw [if_pos (le_refl (0 : ℝ)), real_tan, Real.tan_zero]
  obtain ⟨e1, e2, e3⟩ := third_outer_zero 0 0
  obtain ⟨b1, -, -⟩ := third_bounds
  rw [hclamp, hloop]
  refine ⟨e3, e2, ?_, ?_, ?_⟩
  · rw [e2]
    intro h
    exact absurd h.1 (not_lt.mpr (le_of_lt b1))
  · simp [fwd, hclamp, hloop, e1]
  · simp [fwd, hclamp, hloop, e1]

/-- C12: in `inv`, with `lamt0` the value of the `atan` expression (so strictly between
`-π/2` and `π/2`) and `lamdp` the last estimate after the nudge: when `cos lamdp ≥ 0` the
longitude returned is `lamt0 - p22*lamdp`; when `cos lamdp < 0` it is
`(lamt0 - π) - p22*lamdp` for `lamt0 ≥ 0`, with `lamt0 - π` in `[-π, -π/2)`, and
`(lamt0 + π) - p22*lamdp` for `lamt0 < 0`, with `lamt0 + π` in `(π/2, π)`. -/
theorem C12_inv_longitude_correction (par : Parameters ℝ) (P : par_lsat ℝ) (xy_x xy_y : ℝ) :
    (-(π / 2) < invLamt0 par P xy_y (invLoop P xy_x xy_y 50 (xy_x / P.b)).1 (invLoop P xy_x xy_y 50 (xy_x / P.b)).2 ∧
      invLamt0 par P xy_y (invLoop P xy_x xy_y 50 (xy_x / P.b)).1 (invLoop P xy_x xy_y 50 (xy_x / P.b)).2 < π / 2) ∧
    (Real.cos (invNudge (invLoop P xy_x xy_y 50 (xy_x / P.b)).1) ≥ 0 →
      (inv par P xy_x xy_y).1
        = invLamt0 par P xy_y (invLoop P xy_x xy_y 50 (xy_x / P.b)).1 (invLoop P xy_x xy_y 50 (xy_x / P.b)).2
          - P.p22 * invNudge (invLoop P xy_x xy_y 50 (xy_x / P.b)).1) ∧
    (Real.cos (invNudge (invLoop P xy_x xy_y 50 (xy_x / P.b)).1) < 0 →
      invLamt0 par P xy_y (invLoop P xy_x xy_y 50 (xy_x / P.b)).1 (invLoop P xy_x xy_y 50 (xy_x / P.b)).2 ≥ 0 →
      (inv par P xy_x xy_y).1
        = (invLamt0 par P xy_y (invLoop P xy_x xy_y 50 (xy_x / P.b)).1 (invLoop P xy_x xy_y 50 (xy_x / P.b)).2 - π)
          - P.p22 * invNudge (invLoop P xy_x xy_y 50 (xy_x / P.b)).1 ∧
      -π ≤ invLamt0 par P xy_y (invLoop P xy_x xy_y 50 (xy_x / P.b)).1 (invLoop P xy_x xy_y 50 (xy_x / P.b)).2 - π ∧
      invLamt0 par P xy_y (invLoop P xy_x xy_y 50 (xy_x / P.b)).1 (invLoop P xy_x xy_y 50 (xy_x / P.b)).2 - π < -(π / 2)) ∧
    (Real.cos (invNudge (invLoop P xy_x xy_y 50 (xy_x / P.b)).1) < 0 →
      invLamt0 par P xy_y (invLoop P xy_x xy_y 50 (xy_x / P.b)).1 (invLoop P xy_x xy_y 50 (xy_x / P.b)).2 < 0 →
      (inv par P xy_x xy_y).1
        = (invLamt0 par P xy_y (invLoop P xy_x xy_y 50 (xy_x / P.b)).1 (invLoop P xy_x xy_y 50 (xy_x / P.b)).2 + π)
          - P.p22 * invNudge (invLoop P xy_x xy_y 50 (xy_x / P.b)).1 ∧
      π / 2 < invLamt0 par P xy_y (invLoop P xy_x xy_y 50 (xy_x / P.b)).1 (invLoop P xy_x xy_y 50 (xy_x / P.b)).2 + π ∧
      invLamt0 par P xy_y (invLoop P xy_x xy_y 50 (xy_x / P.b)).1 (invLoop P xy_x xy_y 50 (xy_x / P.b)).2 + π < π) := by
  have hlo : -(π / 2) < invLamt0 par P xy_y (invLoop P xy_x xy_y 50 (xy_x / P.b)).1 (invLoop P xy_x xy_y 50 (xy_x / P.b)).2 := by
    unfold invLamt0
    exact Real.neg_pi_div_two_lt_arctan _
  have hhi : invLamt0 par P xy_y (invLoop P xy_x xy_y 50 (xy_x / P.b)).1 (invLoop P xy_x xy_y 50 (xy_x / P.b)).2 < π / 2 := by
    unfold invLamt0
    exact Real.arctan_lt_pi_div_two _
  have hinv : (inv par P xy_x xy_y).1
      = invLamt par P xy_y (invLoop P xy_x xy_y 50 (xy_x / P.b)).1
          (invLoop P xy_x xy_y 50 (xy_x / P.b)).2
        - P.p22 * invNudge (invLoop P xy_x xy_y 50 (xy_x / P.b)).1 := by
    unfold inv
    simp only [invTail_eq]
  refine ⟨⟨hlo, hhi⟩, fun hc => ?_, fun hc h0 => ⟨?_, by linarith, by linarith⟩,
    fun hc h0 => ⟨?_, by linarith, by linarith⟩⟩
  · rw [hinv, invLamt, real_cos, if_pos hc]
    ring
  · rw [hinv, invLamt, real_cos, if_neg (not_le.mpr hc), if_pos h0, HALFPI, real_pi]
    ring
  · rw [hinv, invLamt, real_cos, if_neg (not_le.mpr hc), if_neg (not_le.mpr h0), HALFPI,
      real_pi]
    ring

/-- C11, evaluated on the code: on `thirdBundle` at `lon = π/3 - TOL/2`, `lat = π/4`
(so `tanphi = 1`) the first attempt of `fwd` runs its inner loop from `sav = π/2` with
`fac = 0`; in the first step the angle is `lamt = π/2 - TOL/2`, whose cosine is positive
and below `TOL`.  The angle is nudged,
but the divisor of `xlam` stays the cosine of the angle before the nudge: the new estimate
is `atan(1 / cos(π/2 - TOL/2))` and not `atan(1 / cos(π/2 - TOL/2 - TOL))`. -/
theorem C11_divisor_not_nudged :
    (fwdAttempt (unitSphere : Parameters ℝ) thirdBundle (π / 3 - TOL / 2) (CalcFns.tan (π / 4))
        HALFPI 0 0
      = fwdInner (unitSphere : Parameters ℝ) thirdBundle (π / 3 - TOL / 2) 1 0 50 (π / 2) 0 0) ∧
    (π / 3 - TOL / 2 + (thirdBundle : par_lsat ℝ).p22 * (π / 2) = π / 2 - TOL / 2) ∧
    (0 < Real.cos (π / 2 - TOL / 2) ∧ |Real.cos (π / 2 - TOL / 2)| < TOL) ∧
    (fwdBody (unitSphere : Parameters ℝ) thirdBundle (π / 3 - TOL / 2) 1 0 (π / 2)).1 = π / 2 - TOL / 2 - TOL ∧
    (fwdBody (unitSphere : Parameters ℝ) thirdBundle (π / 3 - TOL / 2) 1 0 (π / 2)).2 = Real.arctan (1 / Real.cos (π / 2 - TOL / 2)) + 0 ∧
    (fwdBody (unitSphere : Parameters ℝ) thirdBundle (π / 3 - TOL / 2) 1 0 (π / 2)).2 ≠ Real.arctan (1 / Real.cos (π / 2 - TOL / 2 - TOL)) + 0 := by
  have ht0 := real_TOL_pos
  have ht1 := real_TOL_lt
  have hp := Real.pi_gt_three
  have hang : π / 3 - TOL / 2 + (thirdBundle : par_lsat ℝ).p22 * (π / 2) = π / 2 - TOL / 2 := by
    simp only [thirdBundle]
    ring
  have hcos : Real.cos (π / 2 - TOL / 2) = Real.sin (TOL / 2) := Real.cos_pi_div_two_sub _
  have hcos' : Real.cos (π / 2 - TOL / 2 - TOL) = Real.sin (TOL / 2 + TOL) := by
    rw [show π / 2 - (TOL : ℝ) / 2 - TOL = π / 2 - (TOL / 2 + TOL) by ring]
    exact Real.cos_pi_div_two_sub _
  have hpos : 0 < Real.sin ((TOL : ℝ) / 2) :=
    Real.sin_pos_of_pos_of_lt_pi (by linarith) (by linarith)
  have hlt : Real.sin ((TOL : ℝ) / 2) < TOL / 2 := Real.sin_lt (by linarith)
  have hmono : Real.sin ((TOL : ℝ) / 2) < Real.sin (TOL / 2 + TOL) :=
    Real.sin_lt_sin_of_lt_of_le_pi_div_two (by linarith) (by linarith) (by linarith)
  have habs : |Real.cos (π / 2 - TOL / 2)| < TOL := by
    rw [hcos, abs_of_pos hpos]
    linarith
  have hbody : fwdBody (unitSphere : Parameters ℝ) thirdBundle (π / 3 - TOL / 2) 1 0 (π / 2)
      = (π / 2 - TOL / 2 - TOL, Real.arctan (1 / Real.cos (π / 2 - TOL / 2)) + 0) := by
    rw [fwdBody_eq, hang, real_cos, if_pos habs]
    simp only [unitSphere, thirdBundle, real_atan, mul_zero, add_zero, mul_one]
  have hatt : fwdAttempt (unitSphere : Parameters ℝ) thirdBundle (π / 3 - TOL / 2)
      (CalcFns.tan (π / 4)) HALFPI 0 0
      = fwdInner (unitSphere : Parameters ℝ) thirdBundle (π / 3 - TOL / 2) 1 0 50 (π / 2) 0 0 := by
    have hcl : ¬ Real.cos (π / 2 - TOL / 2) < 0 := by
      rw [hcos]
      exact not_lt.mpr (le_of_lt hpos)
    unfold fwdAttempt
    simp only [HALFPI, real_pi, real_tan, real_cos, real_sin, Real.tan_pi_div_four, hang,
      if_neg hcl, Real.sin_pi_div_two, one_mul, sub_self]
  refine ⟨hatt, hang, ⟨by rw [hcos]; exact hpos, habs⟩, by rw [hbody], by rw [hbody], ?_⟩
  rw [hbody]
  intro heq
  have h1 := Real.arctan_injective (add_right_cancel heq)
  rw [hcos, hcos'] at h1
  have h2 : Real.sin ((TOL : ℝ) / 2) = Real.sin (TOL / 2 + TOL) := by
    have := congrArg (fun x => 1 / x) h1
    simpa using this
  linarith

theorem sin_deg_ge_half (d : ℝ) (h1 : 30 ≤ d) (h2 : d ≤ 150) :
    1 / 2 ≤ Real.sin ((d2r : ℝ) * d) := by
  have hp := Real.pi_pos
  rw [d2r, real_pi, ← Real.sin_pi_div_six]
  by_cases h : d ≤ 90
  · exact Real.sin_le_sin_of_le_of_le_pi_div_two (by linarith) (by nlinarith) (by nlinarith)
  · rw [← Real.sin_pi_sub (π / 180 * d)]
    exact Real.sin_le_sin_of_le_of_le_pi_div_two (by linarith) (by nlinarith) (by nlinarith)

/-- The `sa` of a bundle returned by `setup_lsat` is the sine of the inclination of the
satellite group and is at least `1/2`. -/
theorem setup_sa_ge_half (fuel : Nat) (land path : Int) (par : Parameters ℝ)
    (pp : par_lsat ℝ) (hf : 5 ≤ fuel) (h1 : 1 ≤ land) (h5 : land ≤ 5) (hp1 : 1 ≤ path)
    (hp2 : path ≤ (if land ≤ 3 then 251 else 233)) :
    ∃ (par' : Parameters ℝ) (R : par_lsat ℝ),
      setup_lsat fuel land path par pp = some (Except.ok (par', R)) ∧
      R.sa = Real.sin (π / 180 * (if land ≤ 3 then 99.092 else 98.2)) ∧ 1 / 2 ≤ R.sa := by
  have hok := setup_lsat_ok fuel land path par pp hf h1 h5 hp1 hp2
  by_cases hg : land ≤ 3
  · simp only [hg, if_true] at hok ⊢
    refine ⟨_, _, hok, ?_, ?_⟩
    · rw [(quadrature_consts _).2.2.2.2.2.1, (setup_consts_fields _ _ _).2.1, real_sin, d2r,
        real_pi]
    · rw [(quadrature_consts _).2.2.2.2.2.1, (setup_consts_fields _ _ _).2.1, real_sin]
      exact sin_deg_ge_half 99.092 (by norm_num) (by norm_num)
  · simp only [hg, if_false] at hok ⊢
    refine ⟨_, _, hok, ?_, ?_⟩
    · rw [(quadrature_consts _).2.2.2.2.2.1, (setup_consts_fields _ _ _).2.1, real_sin, d2r,
        real_pi]
    · rw [(quadrature_consts _).2.2.2.2.2.1, (setup_consts_fields _ _ _).2.1, real_sin]
      exact sin_deg_ge_half 98.2 (by norm_num) (by norm_num)

/-- C17: on every valid configuration the bundle `R` that `setup_lsat` returns has
`sa = sin(99.092°)` for satellites 1, 2, 3 and `sa = sin(98.2°)` for satellites 4, 5, with
`|sa| ≥ 1e-7`; so `inv` on `R` never takes the branch `fabs(sa) < TOL`, and its latitude
is `atan((tan(lamdp)*cos(lamt) - ca*sin(lamt)) / (one_es*sa))` at the nudged last estimate
`lamdp` and the corrected `lamt`. -/
theorem C17_inv_general_latitude (fuel : Nat) (land path : Int) (par : Parameters ℝ)
    (pp : par_lsat ℝ) (hf : 5 ≤ fuel) (h1 : 1 ≤ land) (h5 : land ≤ 5) (hp1 : 1 ≤ path)
    (hp2 : path ≤ (if land ≤ 3 then 251 else 233)) :
    ∃ (par' : Parameters ℝ) (R : par_lsat ℝ),
      setup_lsat fuel land path par pp = some (Except.ok (par', R)) ∧
      R.sa = Real.sin (π / 180 * (if land ≤ 3 then 99.092 else 98.2)) ∧
      |R.sa| ≥ 1e-7 ∧
      ¬ |R.sa| < TOL ∧
      ∀ xy_x xy_y : ℝ,
        (inv par' R xy_x xy_y).2
          = Real.arctan
              ((Real.tan (invNudge (invLoop R xy_x xy_y 50 (xy_x / R.b)).1)
                  * Real.cos (invLamt par' R xy_y (invLoop R xy_x xy_y 50 (xy_x / R.b)).1
                      (invLoop R xy_x xy_y 50 (xy_x / R.b)).2)
                - R.ca * Real.sin (invLamt par' R xy_y (invLoop R xy_x xy_y 50 (xy_x / R.b)).1
                      (invLoop R xy_x xy_y 50 (xy_x / R.b)).2))
                / (par'.one_es * R.sa)) := by
  obtain ⟨par', R, hok, hsa, hhalf⟩ := setup_sa_ge_half fuel land path par pp hf h1 h5 hp1 hp2
  have habs : |R.sa| = R.sa := abs_of_pos (by linarith)
  have hge : |R.sa| ≥ 1e-7 := by
    rw [habs]
    norm_num
    linarith
  have hnot : ¬ |R.sa| < TOL := by
    rw [habs]
    have := real_TOL_lt
    linarith
  refine ⟨par', R, hok, hsa, hge, hnot, fun xy_x xy_y => ?_⟩
  unfold inv
  simp only [invTail_eq, if_neg hnot]
  rfl

/-- C17, at satellite 5 and path 100 on the unit sphere. -/
theorem C17_inv_general_latitude_witness :
    (5 ≤ 5 ∧ (1 : Int) ≤ 5 ∧ (5 : Int) ≤ 5 ∧ (1 : Int) ≤ 100 ∧
      (100 : Int) ≤ (if (5 : Int) ≤ 3 then 251 else 233)) ∧
    ∃ (par' : Parameters ℝ) (R : par_lsat ℝ),
      setup_lsat 5 5 100 (⟨0, 0, 1, 1⟩ : Parameters ℝ) ⟨0, 0, 0, 0, 0, 0, 0, 0, 0, 0, 0, 0, 0, 0, 0⟩ = some (Except.ok (par', R)) ∧
      R.sa = Real.sin (π / 180 * (if (5 : Int) ≤ 3 then 99.092 else 98.2)) ∧
      |R.sa| ≥ 1e-7 ∧
      ¬ |R.sa| < TOL ∧
      ∀ xy_x xy_y : ℝ,
        (inv par' R xy_x xy_y).2
          = Real.arctan
              ((Real.tan (invNudge (invLoop R xy_x xy_y 50 (xy_x / R.b)).1)
                  * Real.cos (invLamt par' R xy_y (invLoop R xy_x xy_y 50 (xy_x / R.b)).1
                      (invLoop R xy_x xy_y 50 (xy_x / R.b)).2)
                - R.ca * Real.sin (invLamt par' R xy_y (invLoop R xy_x xy_y 50 (xy_x / R.b)).1
                      (invLoop R xy_x xy_y 50 (xy_x / R.b)).2))
                / (par'.one_es * R.sa)) :=
  ⟨by decide, C17_inv_general_latitude 5 5 100 _ _ (by decide) (by decide) (by decide)
    (by decide) (by decide)⟩

/-- With `w, q, t ≥ 0` and `xj > 0` every radicand of `seraz0` is non-negative and
every divisor is positive, at every sample longitude. -/
theorem serazSafe_of_signs (Q : par_lsat ℝ) (hw : 0 ≤ Q.w) (hq : 0 ≤ Q.q) (ht : 0 ≤ Q.t)
    (hx : 0 < Q.xj) (lam : ℝ) : serazSafe lam Q := by
  have ha : 0 ≤ Real.sin (lam * d2r) * Real.sin (lam * d2r) := mul_self_nonneg _
  have hW : 0 < 1 + Q.w * (Real.sin (lam * d2r) * Real.sin (lam * d2r)) :=
    add_pos_of_pos_of_nonneg one_pos (mul_nonneg hw ha)
  have hQ : 0 < 1 + Q.q * (Real.sin (lam * d2r) * Real.sin (lam * d2r)) :=
    add_pos_of_pos_of_nonneg one_pos (mul_nonneg hq ha)
  have hT : 0 < 1 + Q.t * (Real.sin (lam * d2r) * Real.sin (lam * d2r)) :=
    add_pos_of_pos_of_nonneg one_pos (mul_nonneg ht ha)
  have hS : 0 < Q.xj * Q.xj + serazS lam Q * serazS lam Q :=
    add_pos_of_pos_of_nonneg (mul_pos hx hx) (mul_self_nonneg _)
  exact ⟨div_nonneg (le_of_lt hT) (le_of_lt (mul_pos hW hQ)),
    div_nonneg (le_of_lt hQ) (le_of_lt hW), le_of_lt hS, hW, mul_pos hW hQ, mul_pos hQ hQ,
    Real.sqrt_pos.mpr hS⟩

/-- On an ellipsoid with `0 ≤ es < 1`, `one_es = 1 - es`, `rone_es = 1/(1 - es)` the
constants step gives `w, q, t ≥ 0` and `xj > 0`, for every inclination. -/
theorem setup_consts_signs (alf : ℝ) (par : Parameters ℝ) (pp : par_lsat ℝ)
    (he0 : 0 ≤ par.es) (he1 : par.es < 1) (ho : par.one_es = 1 - par.es)
    (hr : par.rone_es = 1 / (1 - par.es)) :
    0 ≤ (setup_consts alf par pp).w ∧ 0 ≤ (setup_consts alf par pp).q ∧
    0 ≤ (setup_consts alf par pp).t ∧ 0 < (setup_consts alf par pp).xj := by
  obtain ⟨ew, eq, et, ex⟩ := setup_consts_shape alf par pp
  have hd : 0 < 1 - par.es := by linarith
  have hrp : 0 < par.rone_es := by rw [hr]; positivity
  have hss : 0 ≤ Real.sin alf * Real.sin alf := mul_self_nonneg _
  have hca : (setup_consts alf par pp).ca * (setup_consts alf par pp).ca ≤ 1 := by
    rw [(setup_consts_fields alf par pp).2.2]
    by_cases h : |CalcFns.cos alf| < 1e-9
    · rw [if_pos h]; norm_num
    · rw [if_neg h, real_cos]
      have := Real.cos_sq_le_one alf
      nlinarith
  have hX : 1 ≤ (1 - par.es * (setup_consts alf par pp).ca * (setup_consts alf par pp).ca)
      * par.rone_es := by
    rw [hr, mul_one_div, le_div_iff₀ hd]
    nlinarith
  refine ⟨?_, ?_, ?_, ?_⟩
  · rw [ew]; nlinarith
  · rw [eq, real_sin, mul_assoc par.es]
    exact mul_nonneg (mul_nonneg he0 hss) (le_of_lt hrp)
  · rw [et, real_sin, mul_assoc par.es]
    exact mul_nonneg (mul_nonneg (mul_nonneg (mul_nonneg he0 hss) (by linarith))
      (le_of_lt hrp)) (le_of_lt hrp)
  · rw [ex, ho]; positivity

/-- C15: on every ellipsoid with `0 ≤ es < 1`, `one_es = 1 - es`, `rone_es = 1/(1 - es)`
and every valid configuration, the bundle `R` that `setup_lsat` returns has `w ≥ 0`,
`q ≥ 0`, `t ≥ 0`, `xj > 0`; every state of the quadrature has these constants; and on
every bundle with these constants, at every sample longitude, `seraz0` takes no square
root of a negative number and divides by no zero (`serazSafe`). -/
theorem C15_quadrature_no_division_by_zero (fuel : Nat) (land path : Int)
    (par : Parameters ℝ) (pp : par_lsat ℝ) (he0 : 0 ≤ par.es) (he1 : par.es < 1)
    (ho : par.one_es = 1 - par.es) (hr : par.rone_es = 1 / (1 - par.es)) (hf : 5 ≤ fuel)
    (h1 : 1 ≤ land) (h5 : land ≤ 5) (hp1 : 1 ≤ path)
    (hp2 : path ≤ (if land ≤ 3 then 251 else 233)) :
    ∃ (par' : Parameters ℝ) (P0 R : par_lsat ℝ),
      setup_lsat fuel land path par pp = some (Except.ok (par', R)) ∧
      R = setup_divide ((samples : List (ℝ × ℝ)).foldl (fun acc s => seraz0 s.1 s.2 acc)
            (setup_reset P0)) ∧
      0 ≤ R.w ∧ 0 ≤ R.q ∧ 0 ≤ R.t ∧ 0 < R.xj ∧
      (∀ n : Nat, sameConsts (((samples : List (ℝ × ℝ)).take n).foldl
        (fun acc s => seraz0 s.1 s.2 acc) (setup_reset P0)) R) ∧
      (∀ Q : par_lsat ℝ, sameConsts Q R → ∀ lam : ℝ, serazSafe lam Q) := by
  have hok := setup_lsat_ok fuel land path par pp hf h1 h5 hp1 hp2
  have main : ∀ (alf : ℝ) (par2 : Parameters ℝ) (pp2 : par_lsat ℝ), par2.es = par.es →
      par2.one_es = par.one_es → par2.rone_es = par.rone_es →
      (0 ≤ (setup_divide ((samples : List (ℝ × ℝ)).foldl (fun acc s => seraz0 s.1 s.2 acc)
            (setup_reset (setup_consts alf par2 pp2)))).w ∧
        0 ≤ (setup_divide ((samples : List (ℝ × ℝ)).foldl (fun acc s => seraz0 s.1 s.2 acc)
            (setup_reset (setup_consts alf par2 pp2)))).q ∧
        0 ≤ (setup_divide ((samples : List (ℝ × ℝ)).foldl (fun acc s => seraz0 s.1 s.2 acc)
            (setup_reset (setup_consts alf par2 pp2)))).t ∧
        0 < (setup_divide ((samples : List (ℝ × ℝ)).foldl (fun acc s => seraz0 s.1 s.2 acc)
            (setup_reset (setup_consts alf par2 pp2)))).xj) ∧
      (∀ n : Nat, sameConsts (((samples : List (ℝ × ℝ)).take n).foldl
          (fun acc s => seraz0 s.1 s.2 acc) (setup_reset (setup_consts alf par2 pp2)))
        (setup_divide ((samples : List (ℝ × ℝ)).foldl (fun acc s => seraz0 s.1 s.2 acc)
            (setup_reset (setup_consts alf par2 pp2))))) := by
    intro alf par2 pp2 e1 e2 e3
    obtain ⟨sw, sq, st, sx⟩ := setup_consts_signs alf par2 pp2 (by rw [e1]; exact he0)
      (by rw [e1]; exact he1) (by rw [e1, e2]; exact ho) (by rw [e1, e3]; exact hr)
    have hc := quadrature_consts (setup_consts alf par2 pp2)
    obtain ⟨c1, c2, -, c4, -, -, -, c8, -, -⟩ := hc
    refine ⟨⟨by rw [c4]; exact sw, by rw [c1]; exact sq, by rw [c2]; exact st,
      by rw [c8]; exact sx⟩, fun n => ?_⟩
    exact sameConsts_trans (quadrature_prefix_consts n _)
      (sameConsts_symm (quadrature_consts (setup_consts alf par2 pp2)))
  by_cases hg : land ≤ 3
  · simp only [hg, if_true] at hok
    obtain ⟨⟨sw, sq, st, sx⟩, hpre⟩ := main (d2r * 99.092)
      { par with lam0 := d2r * 128.87 - TWOPI / 251 * (path : ℝ) }
      { pp with p22 := 103.2669323 } rfl rfl rfl
    refine ⟨_, _, _, hok, rfl, sw, sq, st, sx, hpre, fun Q hQ lam => ?_⟩
    obtain ⟨c1, c2, -, c4, -, -, -, c8, -, -⟩ := hQ
    exact serazSafe_of_signs Q (by rw [c4]; exact sw) (by rw [c1]; exact sq)
      (by rw [c2]; exact st) (by rw [c8]; exact sx) lam
  · simp only [hg, if_false] at hok
    obtain ⟨⟨sw, sq, st, sx⟩, hpre⟩ := main (d2r * 98.2)
      { par with lam0 := d2r * 129.3 - TWOPI / 233 * (path : ℝ) }
      { pp with p22 := 98.8841202 } rfl rfl rfl
    refine ⟨_, _, _, hok, rfl, sw, sq, st, sx, hpre, fun Q hQ lam => ?_⟩
    obtain ⟨c1, c2, -, c4, -, -, -, c8, -, -⟩ := hQ
    exact serazSafe_of_signs Q (by rw [c4]; exact sw) (by rw [c1]; exact sq)
      (by rw [c2]; exact st) (by rw [c8]; exact sx) lam

/-- C15, at satellite 1 and path 251 on an ellipsoid with `es = 0.00669438`. -/
theorem C15_quadrature_no_division_by_zero_witness :
    ((0 : ℝ) ≤ 0.00669438 ∧ (0.00669438 : ℝ) < 1 ∧
      (1 - 0.00669438 : ℝ) = 1 - 0.00669438 ∧
      (1 / (1 - 0.00669438) : ℝ) = 1 / (1 - 0.00669438) ∧ 5 ≤ 5 ∧ (1 : Int) ≤ 1 ∧
      (1 : Int) ≤ 5 ∧ (1 : Int) ≤ 251 ∧ (251 : Int) ≤ (if (1 : Int) ≤ 3 then 251 else 233)) ∧
    ∃ (par' : Parameters ℝ) (P0 R : par_lsat ℝ),
      setup_lsat 5 1 251 (⟨0, 0.00669438, 1 - 0.00669438, 1 / (1 - 0.00669438)⟩ : Parameters ℝ) ⟨0, 0, 0, 0, 0, 0, 0, 0, 0, 0, 0, 0, 0, 0, 0⟩ = some (Except.ok (par', R)) ∧
      R = setup_divide ((samples : List (ℝ × ℝ)).foldl (fun acc s => seraz0 s.1 s.2 acc)
            (setup_reset P0)) ∧
      0 ≤ R.w ∧ 0 ≤ R.q ∧ 0 ≤ R.t ∧ 0 < R.xj ∧
      (∀ n : Nat, sameConsts (((samples : List (ℝ × ℝ)).take n).foldl
        (fun acc s => seraz0 s.1 s.2 acc) (setup_reset P0)) R) ∧
      (∀ Q : par_lsat ℝ, sameConsts Q R → ∀ lam : ℝ, serazSafe lam Q) :=
  ⟨⟨by norm_num, by norm_num, rfl, rfl, by decide⟩,
    C15_quadrature_no_division_by_zero 5 1 251 (⟨0, 0.00669438, 1 - 0.00669438, 1 / (1 - 0.00669438)⟩ : Parameters ℝ) _ (by norm_num) (by norm_num) rfl rfl
      (by decide) (by decide) (by decide) (by decide) (by decide)⟩

end RealExamples

end lsat
